import Mathlib

/-!
Verification development for the Cura post-processing core:
the script pipeline runner (`plugins/PostProcessingPlugin/PostProcessingPlugin.py`,
method `execute`) and the layer-indexed text rewriting of the representative
script `DisplayInfoOnLCD` (`plugins/PostProcessingPlugin/scripts/DisplayInfoOnLCD.py`).

A document (`gcode_list` / `data` in the Python source) is an ordered list of
section strings.  The Python code manipulates sections with `split("\n")`,
`"\n".join(...)`, substring tests (`in`), `startswith`, list `insert` /
`index`, and integer / float arithmetic; these are embedded below with the
same structure.  Python floats are modelled by `ℚ`; `int(x)` is truncation
toward zero, `//` is floor division, `divmod(m, n)` for positive `n` pairs
floor division with a nonnegative remainder, and Python `round` rounds
halves to the nearest even integer.  Code that can raise (`IndexError`,
`ValueError` from `int(...)` / `float(...)` on malformed text,
nontermination of a `for` loop over a list that is mutated while iterating)
is modelled in `Except Unit` / with an explicit fuel counter; `.error ()`
stands for an uncaught exception escaping the modelled fragment.
-/

/-- A document: the ordered list of g-code section strings
(`gcode_list` in `PostProcessingPlugin.execute`, `data` in scripts). -/
abbrev Doc := List String

/-- Python substring test `pat in s` (`str.__contains__`). -/
def strContains (s pat : String) : Bool := decide (pat.toList <:+: s.toList)

/-- Python `s.startswith(pat)`. -/
def pyStartsWith (s pat : String) : Bool := pat.toList.isPrefixOf s.toList

/-- Worker for `pySplit`: when `skip` is positive the characters still
belong to the separator just matched and are dropped. -/
def pySplitGo (sep : List Char) : List Char → ℕ → List Char → List String
  | [], _, acc => [String.mk acc.reverse]
  | _ :: rest, skip+1, acc => pySplitGo sep rest skip acc
  | c :: rest, 0, acc =>
    if sep.isPrefixOf (c :: rest) && !sep.isEmpty then
      String.mk acc.reverse :: pySplitGo sep rest (sep.length - 1) []
    else pySplitGo sep rest 0 (c :: acc)

/-- Python `s.split(sep)` for a non-empty separator. -/
def pySplit (s sep : String) : List String := pySplitGo sep.toList s.toList 0 []

/-- Digit-string accumulator for `int(...)`. -/
def digitsToNatGo : List Char → ℕ → Option ℕ
  | [], acc => some acc
  | c :: rest, acc =>
    if c.isDigit then digitsToNatGo rest (acc * 10 + (c.toNat - 48)) else none

/-- All-digit parse; `none` on the empty list (Python `int("")` raises). -/
def digitsToNat? : List Char → Option ℕ
  | [] => none
  | l => digitsToNatGo l 0

/-- Python `int(s)` on decimal text: optional minus sign then digits;
`none` models the `ValueError` raise.  (The real `int` also strips
whitespace and accepts `"+"` and underscores, which never occur in the
marker values handled here.) -/
def pyToInt? (s : String) : Option ℤ :=
  match s.toList with
  | '-' :: rest => (digitsToNat? rest).map (fun n => -(n : ℤ))
  | l => (digitsToNat? l).map (fun n => (n : ℤ))

/-- A configured post-processing script instance, as the pipeline runner sees
it.  `run d` returns the document state after calling `script.execute(d)`
together with `true` when the call returned normally and `false` when it
raised.  On an exception the first component is the document as the failing
script left it (Python mutates `gcode_list` in place, so a script that dies
half-way leaves its partial edits behind; a script that raises before
touching the list leaves it unmodified). -/
structure Script where
  run : Doc → Doc × Bool

/-- Lines 75-79 of `PostProcessingPlugin.execute`: apply each script in list
order inside `try: gcode_list = script.execute(gcode_list) except Exception:
Logger.logException(...)`.  The exception is swallowed, so the next script
always runs on the document as the previous call left it. -/
def runScriptList : List Script → Doc → Doc
  | [], gcode_list => gcode_list
  | script :: rest, gcode_list => runScriptList rest (script.run gcode_list).1

/-- Lines 71-85 of `PostProcessingPlugin.execute`.  An empty `gcode_list`
returns early (line 71).  If `";POSTPROCESSED"` occurs in the first section
the pipeline only logs "Already post processed" and changes nothing
(lines 74, 84-85).  Otherwise every script is run (lines 75-79) and, when the
script list is non-empty, `";POSTPROCESSED\n"` is appended to the first
section (lines 80-81); `gcode_list[0] +=` raises `IndexError` if a script
left the list empty. -/
def postProcessingExecute (script_list : List Script) (gcode_list : Doc) :
    Except Unit Doc :=
  match gcode_list with
  | [] => .ok []
  | first :: rest =>
    if strContains first ";POSTPROCESSED" then .ok (first :: rest)
    else
      let d := runScriptList script_list (first :: rest)
      if script_list.isEmpty then .ok d
      else
        match d with
        | [] => .error ()
        | h0 :: t => .ok ((h0 ++ ";POSTPROCESSED\n") :: t)

/-- Python `int(x)` applied to a float: truncation toward zero. -/
def pyInt (q : ℚ) : ℤ := if 0 ≤ q then ⌊q⌋ else ⌈q⌉

/-- Python `round(x)` on a float: round to the nearest integer, halves to
the even neighbour. -/
def pyRound (q : ℚ) : ℤ :=
  if q - ⌊q⌋ < 1/2 then ⌊q⌋
  else if 1/2 < q - ⌊q⌋ then ⌊q⌋ + 1
  else if ⌊q⌋ % 2 = 0 then ⌊q⌋ else ⌊q⌋ + 1

/-- Lines 283-295 of `DisplayInfoOnLCD.execute` (display-progress branch):
the remaining-time suffix appended to the per-layer display text.
`m = (time_total - time_elapsed) // 60` (Python floor division on ints),
scaled by the fudge factor and truncated by `int(...)`, then
`h, m = divmod(m, 60)`; hours are shown only when positive, and a single
`"0"` is prefixed to the minutes when `m < 10`. -/
def timeRemainingDisplay (time_total time_elapsed : ℤ) (speed_factor : ℚ) : String :=
  let m0 : ℤ := Int.fdiv (time_total - time_elapsed) 60
  let m : ℤ := pyInt ((m0 : ℚ) * speed_factor)
  let h : ℤ := Int.fdiv m 60
  let m : ℤ := Int.emod m 60
  if h > 0 then
    " | ET " ++ toString h ++ "h" ++ (if m < 10 then "0" else "") ++ toString m ++ "m"
  else
    " | ET " ++ toString m ++ "m"

/-- Zero-padding to two digits, as the spec words it. -/
def padTwo (n : ℤ) : String :=
  if (toString n).length < 2 then "0" ++ toString n else toString n

/-- C3's remaining-time suffix exactly as the claim words it:
`m0 = (totalEstimateSeconds - elapsedTimeSeconds) // 60`,
`m = int(m0 * fudgeFactor)`, `(h, m) = divmod(m, 60)`; when `h > 0` the text
is `"<h>h<mm>m"` with the minutes zero-padded to two digits, otherwise
`"<m>m"` with no hour segment and no padding. -/
def specRemainingSuffix (totalEstimate elapsed : ℤ) (fudge : ℚ) : String :=
  let m0 : ℤ := Int.fdiv (totalEstimate - elapsed) 60
  let m : ℤ := pyInt ((m0 : ℚ) * fudge)
  let h : ℤ := Int.fdiv m 60
  let mm : ℤ := Int.emod m 60
  if 0 < h then " | ET " ++ toString h ++ "h" ++ padTwo mm ++ "m"
  else " | ET " ++ toString mm ++ "m"

/-- Lines 231-238 of `DisplayInfoOnLCD.execute`: the adjusted overall
estimate inserted after the `";TIME:"` preamble marker.
`print_time = cura_time * speed_factor`, `hhh = print_time / 3600`,
`hr = round(hhh // 1)` (float floor division) and
`mmm = round((hhh % 1) * 60)` (float modulus: `x % 1 = x - ⌊x⌋`). -/
def adjustedEstimate (cura_time : ℤ) (speed_factor : ℚ) : ℤ × ℤ :=
  let print_time : ℚ := (cura_time : ℚ) * speed_factor
  let hhh : ℚ := print_time / 3600
  let hr : ℤ := pyRound ((⌊hhh⌋ : ℚ))
  let mmm : ℤ := pyRound ((hhh - (⌊hhh⌋ : ℚ)) * 60)
  (hr, mmm)

/-- Lines 369-383 of `DisplayInfoOnLCD.message_to_user`: decide the print
start instant.  A `print_start_time` setting that is empty, `"0"`, not of
length 5, or without a colon is discarded and the current clock time plus a
900 second (15 minute) delay is used; otherwise `int(...)` parses the two
`":"`-separated fields (raising on non-numeric text).  Returns
`(hr, min, sec, fifteen_minute_delay)`. -/
def startParams (print_start_time : String) (nowH nowM nowS : ℤ) :
    Except Unit (ℤ × ℤ × ℤ × ℤ) :=
  let pst := if print_start_time = "" ∨ print_start_time = "0" ∨
      print_start_time.length ≠ 5 ∨ strContains print_start_time ":" = false
    then "" else print_start_time
  if pst ≠ "" then
    match pyToInt? ((pySplit pst ":").getD 0 ""), pyToInt? ((pySplit pst ":").getD 1 "") with
    | some hr, some mn => .ok (hr, mn, 0, 0)
    | _, _ => .error ()
  else .ok (nowH, nowM, nowS, 900)

/-- `new_time.strftime("%H")`: the 24-hour hour rendered as a zero-padded
two-digit string. -/
def strftimeH (H : ℕ) : String := (if H < 10 then "0" else "") ++ toString H

/-- Lines 411-420 of `DisplayInfoOnLCD.message_to_user`: the 24-hour to
12-hour conversion of the finish instant, returning
`(show_hr, show_ampm)`.  `H` is `int(new_time.strftime("%H"))`. -/
def to12Hour (H : ℕ) : String × String :=
  if H > 12 then (toString (H - 12) ++ ":", " PM")
  else if H = 0 then ("12:", " AM")
  else (strftimeH H ++ ":", " AM")

/-- Python `float(...)` applied to the text after a marker: optional minus
sign, digits, optionally a dot and further digits.  `none` models the
`ValueError` raise.  (The real `float` also accepts exponents and
surrounding whitespace, which never occur in the sliced g-code handled
here.) -/
def parseFloat? (s : String) : Option ℚ :=
  let core : List Char → Option ℚ := fun t =>
    match pySplitGo ['.'] t 0 [] with
    | [a] => (digitsToNat? a.toList).map (fun n => (n : ℚ))
    | [a, b] =>
      if a = "" ∧ b = "" then none
      else
        match (if a = "" then some 0 else digitsToNat? a.toList),
              (if b = "" then some 0 else digitsToNat? b.toList) with
        | some n, some d => some ((n : ℚ) + (d : ℚ) / (10 : ℚ) ^ b.length)
        | _, _ => none
    | _ => none
  match s.toList with
  | '-' :: rest => (core rest).map Neg.neg
  | l => core l

/-- Settings of the display-progress branch of `DisplayInfoOnLCD.execute`
(the `speed_factor` field is already divided by 100, line 219). -/
structure DPSettings where
  display_total_layers : Bool
  display_remaining_time : Bool
  add_m118_line : Bool
  speed_factor : ℚ
  countdown_to_pause : Bool

/-- Python `str.replace(pat, rep)` on character lists: replace every
(left-most, non-overlapping) occurrence. -/
def replaceAllChGo (pat rep : List Char) : List Char → ℕ → List Char
  | [], _ => []
  | _ :: rest, skip+1 => replaceAllChGo pat rep rest skip
  | c :: rest, 0 =>
    if pat.isPrefixOf (c :: rest) && !pat.isEmpty then
      rep ++ replaceAllChGo pat rep rest (pat.length - 1)
    else c :: replaceAllChGo pat rep rest 0

/-- Replace every left-most, non-overlapping occurrence. -/
def replaceAllCh (pat rep : List Char) (l : List Char) : List Char :=
  replaceAllChGo pat rep l 0

/-- Python `s.replace(pat, rep)` (all occurrences). -/
def pyReplace (s pat rep : String) : String :=
  ⟨replaceAllCh pat.toList rep.toList s.toList⟩

/-- Python `s.replace(pat, rep, 1)`: first occurrence only. -/
def replaceFirstCh (pat rep : List Char) : List Char → List Char
  | [] => []
  | c :: rest =>
    if pat.isPrefixOf (c :: rest) ∧ pat ≠ [] then rep ++ rest.drop (pat.length - 1)
    else c :: replaceFirstCh pat rep rest

/-- Python `s.replace(pat, rep, 1)` on strings. -/
def pyReplaceFirst (s pat rep : String) : String :=
  ⟨replaceFirstCh pat.toList rep.toList s.toList⟩

/-- Rendering of the float `speed_factor * 100` inside the logged
`"M118 Est w/FudgeFactor ..."` summary line (`str(...)` in Python); the
exact text of that log line is not the subject of any claim. -/
def floatStr (q : ℚ) : String := toString q

/-- Lines 226-245 of `DisplayInfoOnLCD.execute`: walk the lines of the
first section; for each line starting with `";TIME:"`, parse the raw
estimate, insert (directly after the first occurrence of that line) the
original-estimate comment, the `"M117 ET ..."` display line and optionally
the `"M118 ..."` line, write the joined lines back to section 0 and append
the estimate summary to the last section.  The Python `for` iterates over
the very list it inserts into, hence the index/fuel formulation; fuel
exhaustion models the loop never finishing. -/
def preambleLoop (st : DPSettings) :
    ℕ → List String → ℕ → Doc → Except Unit (List String × Doc)
  | 0, _, _, _ => .error ()
  | fuel+1, lines, idx, data =>
    match lines.get? idx with
    | none => .ok (lines, data)
    | some line =>
      if pyStartsWith line ";TIME:" then
        match pyToInt? ((pySplit line ":").getD 1 "") with
        | none => .error ()
        | some cura_time =>
          let tindex := lines.indexOf line
          let hr := (adjustedEstimate cura_time st.speed_factor).1
          let mmm := (adjustedEstimate cura_time st.speed_factor).2
          let orig_hr := (adjustedEstimate cura_time 1).1
          let orig_mmm := (adjustedEstimate cura_time 1).2
          let lines :=
            if st.add_m118_line then
              lines.insertIdx (tindex+1)
                ("M118 Adjusted Print Time " ++ toString hr ++ "hr " ++ toString mmm ++ "min")
            else lines
          let lines := lines.insertIdx (tindex+1)
            ("M117 ET " ++ toString hr ++ "hr " ++ toString mmm ++ "min")
          let lines := lines.insertIdx (tindex+1)
            (";Cura Time:  " ++ toString orig_hr ++ "hr " ++ toString orig_mmm ++ "min")
          let data := data.set 0 (String.intercalate "\n" lines)
          let data := data.set (data.length - 1)
            (data.getD (data.length - 1) ""
              ++ "M117 Orig Cura Est " ++ toString orig_hr ++ "hr " ++ toString orig_mmm ++ "min\n")
          let data :=
            if st.add_m118_line then
              data.set (data.length - 1)
                (data.getD (data.length - 1) ""
                  ++ "M118 Est w/FudgeFactor  " ++ floatStr (st.speed_factor * 100)
                  ++ "% was " ++ toString hr ++ "hr " ++ toString mmm ++ "min\n")
            else data
          preambleLoop st fuel lines (idx+1) data
      else preambleLoop st fuel lines (idx+1) data

/-- Lines 250-252: strip every `";End of Gcode\n"` from the last section and
re-append it at the very end. -/
def relocateEnd (s : String) : String :=
  pyReplace s ";End of Gcode\n" "" ++ ";End of Gcode" ++ "\n"

/-- Lines 261-265: the inner line scan of the preamble search, keeping the
last `";LAYER_COUNT:"` and `";TIME:"` values seen. -/
def scanCountTime : List String → ℤ → ℤ → Except Unit (ℤ × ℤ)
  | [], nl, tt => .ok (nl, tt)
  | line :: rest, nl, tt =>
    if pyStartsWith line ";LAYER_COUNT:" then
      match pyToInt? ((pySplit line ":").getD 1 "") with
      | none => .error ()
      | some v => scanCountTime rest v tt
    else if pyStartsWith line ";TIME:" then
      match pyToInt? ((pySplit line ":").getD 1 "") with
      | none => .error ()
      | some v => scanCountTime rest nl v
    else scanCountTime rest nl tt

/-- Lines 253-265 of `DisplayInfoOnLCD.execute`: find the index of the
first section containing `";LAYER:"`, collecting `number_of_layers` and
`time_total` from the sections before it; if no section contains the
marker, `first_layer_index` keeps its initial value 0. -/
def preScanGo : Doc → ℕ → ℤ → ℤ → Except Unit (ℕ × ℤ × ℤ)
  | [], _, nl, tt => .ok (0, nl, tt)
  | sec :: rest, idx, nl, tt =>
    if strContains sec ";LAYER:" then .ok (idx, nl, tt)
    else
      match scanCountTime (pySplit sec "\n") nl tt with
      | .error e => .error e
      | .ok (nl', tt') => preScanGo rest (idx+1) nl' tt'

/-- Entry point of the preamble search (initial values from lines 221-223). -/
def preScan (data : Doc) : Except Unit (ℕ × ℤ × ℤ) := preScanGo data 0 0 0

/-- Lines 299-304: the backward scan for the last `";TIME_ELAPSED:"` line of
a layer. -/
def findTimeElapsed (lines : List String) : Option String :=
  lines.reverse.find? (fun line => pyStartsWith line ";TIME_ELAPSED:")

/-- Lines 306-311: append the `"M117 <display_text>"` (and optional
`"M118 ..."`) continuation to the first line starting with `";LAYER:"`
(`break` after the first hit; no change when no line matches). -/
def insertDisplay (display_text : String) (m118 : Bool) : List String → List String
  | [] => []
  | line :: rest =>
    if pyStartsWith line ";LAYER:" then
      (line ++ "\nM117 " ++ display_text
        ++ (if m118 then "\nM118 " ++ display_text else "")) :: rest
    else line :: insertDisplay display_text m118 rest

/-- Lines 268-313 of `DisplayInfoOnLCD.execute`: one iteration of the
per-layer annotation loop.  The loop state is
`(data, current_layer, time_elapsed)`; the iteration reads
`data[first_layer_index + layer_counter]` (raising `IndexError` when that
runs past the end), skips sections not containing the `";LAYER:"`
substring (undoing the `current_layer += 1`), and otherwise builds the
display text, updates `time_elapsed` from the layer's last
`";TIME_ELAPSED:"` line, inserts the display line(s) and writes the
section back. -/
def dpBody (st : DPSettings) (number_of_layers time_total : ℤ)
    (first_layer_index : ℕ) (base_display_text : String)
    (acc : Doc × ℤ × ℤ) (layer_counter : ℕ) : Except Unit (Doc × ℤ × ℤ) :=
  let data := acc.1
  let current_layer := acc.2.1 + 1
  let time_elapsed := acc.2.2
  let layer_index := first_layer_index + layer_counter
  match data.get? layer_index with
  | none => .error ()
  | some sec =>
    let display_text := base_display_text ++ toString current_layer
    let lines := pySplit sec "\n"
    if strContains sec ";LAYER:" = false then .ok (data, current_layer - 1, time_elapsed)
    else
      let display_text :=
        if st.display_total_layers then display_text ++ "/" ++ toString number_of_layers
        else display_text
      if st.display_remaining_time then
        let display_text :=
          display_text ++ timeRemainingDisplay time_total time_elapsed st.speed_factor
        let te : Except Unit ℤ :=
          if current_layer ≠ number_of_layers then
            match findTimeElapsed lines with
            | none => .ok time_elapsed
            | some line =>
              match parseFloat? ((pySplit line ":").getD 1 "") with
              | none => .error ()
              | some q => .ok (pyInt q)
          else .ok time_elapsed
        match te with
        | .error e => .error e
        | .ok time_elapsed' =>
          .ok (data.set layer_index
                (String.intercalate "\n" (insertDisplay display_text st.add_m118_line lines)),
               current_layer, time_elapsed')
      else
        .ok (data.set layer_index
              (String.intercalate "\n" (insertDisplay display_text st.add_m118_line lines)),
             current_layer, time_elapsed)

/-- The per-layer loop `for layer_counter in range(len(data)-2)` folded over
its counter list. -/
def dpLoopGo (st : DPSettings) (number_of_layers time_total : ℤ)
    (first_layer_index : ℕ) (base_display_text : String) :
    List ℕ → (Doc × ℤ × ℤ) → Except Unit (Doc × ℤ × ℤ)
  | [], acc => .ok acc
  | c :: cs, acc =>
    match dpBody st number_of_layers time_total first_layer_index base_display_text acc c with
    | .error e => .error e
    | .ok acc' => dpLoopGo st number_of_layers time_total first_layer_index base_display_text cs acc'

/-- Lines 266-313: the whole per-layer annotation loop, starting from
`current_layer = 0`, `time_elapsed = 0`. -/
def dpLoop (st : DPSettings) (number_of_layers time_total : ℤ)
    (first_layer_index : ℕ) (base_display_text : String) (data : Doc) :
    Except Unit (Doc × ℤ × ℤ) :=
  dpLoopGo st number_of_layers time_total first_layer_index base_display_text
    (List.range (data.length - 2)) (data, 0, 0)

/-- Lines 331-334: the retroactive rewrite
`for qnum in range(num - 1, pause_index, -1): time_list[qnum] =
str(float(this_time) - float(time_list[qnum])) + "P"`.
A `time_list` entry models the Python string `str(v)` as `(v, false)` and
the tagged string `str(v) + "P"` as `(v, true)`; `float(...)` of an
already-tagged entry would raise `ValueError` (the trailing `"P"`), hence
the `.error` there, and an out-of-range index raises `IndexError`. -/
def tagRange (this_time : ℚ) (lo : ℕ) :
    ℕ → List (ℚ × Bool) → Except Unit (List (ℚ × Bool))
  | 0, tl => .ok tl
  | q+1, tl =>
    if q + 1 ≤ lo then .ok tl
    else
      match tl.get? (q+1) with
      | none => .error ()
      | some (v, tagged) =>
        if tagged then .error ()
        else tagRange this_time lo q (tl.set (q+1) (this_time - v, true))

/-- Lines 326-334, the line scan of one section in the first countdown
pass: every `";TIME_ELAPSED:"` line appends the scaled cumulative time; if
the section also contains `"PauseAtHeight.py"`, entries back to (exclusive)
the cursor are rewritten to time-to-pause values and the cursor advances to
`num - 1`. -/
def pass1Lines (f : ℚ) (sec : String) (num : ℕ) :
    List String → List (ℚ × Bool) × ℚ × ℕ → Except Unit (List (ℚ × Bool) × ℚ × ℕ)
  | [], st => .ok st
  | line :: rest, (time_list, this_time, pause_index) =>
    if pyStartsWith line ";TIME_ELAPSED:" then
      match parseFloat? ((pySplit line ":").getD 1 "") with
      | none => .error ()
      | some v =>
        let this_time := v * f
        let time_list := time_list ++ [(this_time, false)]
        if strContains sec "PauseAtHeight.py" then
          match tagRange this_time pause_index (num - 1) time_list with
          | .error e => .error e
          | .ok tl => pass1Lines f sec num rest (tl, this_time, num - 1)
        else pass1Lines f sec num rest (time_list, this_time, pause_index)
    else pass1Lines f sec num rest (time_list, this_time, pause_index)

/-- The outer loop `for num in range(2, len(data) - 1)` of the first
countdown pass, over the sections it visits. -/
def pass1Go (f : ℚ) :
    List String → ℕ → List (ℚ × Bool) × ℚ × ℕ → Except Unit (List (ℚ × Bool) × ℚ × ℕ)
  | [], _, st => .ok st
  | sec :: rest, num, st =>
    match pass1Lines f sec num (pySplit sec "\n") st with
    | .error e => .error e
    | .ok st' => pass1Go f rest (num + 1) st'

/-- Lines 317-334: the whole first countdown pass.  `time_list` starts with
the two placeholder `"0"` entries, `this_time = 0`, `pause_index = 1`;
sections `2 .. len(data) - 2` are visited. -/
def pass1 (f : ℚ) (data : Doc) : Except Unit (List (ℚ × Bool) × ℚ × ℕ) :=
  pass1Go f ((data.drop 2).take (data.length - 3)) 2 ([(0, false), (0, false)], 0, 1)

/-- Lines 343-353: format the time-to-pause value
(`alt_time = time_list[num][:-1]`, i.e. the tagged value with its `"P"`
stripped). -/
def timeToPause (alt_time : ℚ) : String :=
  let hhh : ℤ := pyInt (alt_time / 3600)
  let hhr : String := if hhh > 0 then toString hhh ++ "h" else ""
  let mmm : ℚ := (alt_time / 3600 - (pyInt (alt_time / 3600) : ℚ)) * 60
  let sss : ℤ := pyInt ((mmm - (pyInt mmm : ℚ)) * 60)
  let ttg := hhr ++ (toString (pyRound mmm) ++ "m")
  if hhr = "" then ttg ++ toString sss ++ "s" else ttg

/-- Lines 340-358: the line scan of one section in the second countdown
pass.  `M117` lines with a `"|"` whose `time_list` entry is tagged are
rewritten to `"| TP ..."` (every occurrence of the line inside the section,
Python `str.replace`); `M118` lines reuse the `time_to_go` of the last
`M117` rewrite (a `NameError`, modelled as `.error`, if none happened yet);
an out-of-range `time_list[num]` raises. -/
def pass2Lines (time_list : List (ℚ × Bool)) (num : ℕ) :
    List String → String → Option String → Except Unit (String × Option String)
  | [], layer, ttg => .ok (layer, ttg)
  | line :: rest, layer, ttg =>
    if pyStartsWith line "M117" && strContains line "|" then
      match time_list.get? num with
      | none => .error ()
      | some (v, tagged) =>
        if tagged then
          let ttgStr := timeToPause v
          let M117_line := (pySplit line "|").getD 0 "" ++ "| TP " ++ ttgStr
          pass2Lines time_list num rest (pyReplace layer line M117_line) (some ttgStr)
        else pass2Lines time_list num rest layer ttg
    else if pyStartsWith line "M118" && strContains line "|" then
      match time_list.get? num with
      | none => .error ()
      | some (_, tagged) =>
        if tagged then
          match ttg with
          | none => .error ()
          | some t =>
            pass2Lines time_list num rest
              (pyReplace layer line ((pySplit line "|").getD 0 "" ++ "| TP " ++ t)) ttg
        else pass2Lines time_list num rest layer ttg
    else pass2Lines time_list num rest layer ttg

/-- The outer loop `for num in range(2, len(data) - 1, 1)` of the second
countdown pass, returning the rewritten sections. -/
def pass2Go (time_list : List (ℚ × Bool)) :
    List String → ℕ → Option String → Except Unit (List String × Option String)
  | [], _, ttg => .ok ([], ttg)
  | sec :: rest, num, ttg =>
    match pass2Lines time_list num (pySplit sec "\n") sec ttg with
    | .error e => .error e
    | .ok (sec', ttg') =>
      match pass2Go time_list rest (num + 1) ttg' with
      | .error e => .error e
      | .ok (rest', ttg'') => .ok (sec' :: rest', ttg'')

/-- Lines 316-359: the countdown-to-pause rewrite (both passes), applied to
sections `2 .. len(data) - 2`; sections 0, 1 and the last are not visited. -/
def pausePass (f : ℚ) (data : Doc) : Except Unit Doc :=
  match pass1 f data with
  | .error e => .error e
  | .ok (time_list, _, _) =>
    match pass2Go time_list ((data.drop 2).take (data.length - 3)) 2 none with
    | .error e => .error e
    | .ok (mid, _) => .ok (data.take 2 ++ mid ++ data.drop (2 + mid.length))

/-- Lines 215-364 of `DisplayInfoOnLCD.execute` with
`display_option == "display_progress"`: preamble estimate block, end-marker
relocation, preamble search, per-layer loop, optional countdown-to-pause
rewrite.  (The finish-time notification of lines 361-363 is an external
side effect and is not part of the document transform.)  `data[0]` on an
empty document raises. -/
def dpExecute (st : DPSettings) (fuel : ℕ) (data : Doc) : Except Unit Doc :=
  match data with
  | [] => .error ()
  | first_section :: _ =>
    match preambleLoop st fuel (pySplit first_section "\n") 0 data with
    | .error e => .error e
    | .ok (_, data₁) =>
      let base_display_text :=
        if st.display_total_layers = false ∨ st.display_remaining_time = false then "layer "
        else ""
      let data₂ := data₁.set (data₁.length - 1) (relocateEnd (data₁.getD (data₁.length - 1) ""))
      match preScan data₂ with
      | .error e => .error e
      | .ok (first_layer_index, number_of_layers, time_total) =>
        match dpLoop st number_of_layers time_total first_layer_index base_display_text data₂ with
        | .error e => .error e
        | .ok (data₃, _, _) =>
          if st.countdown_to_pause then pausePass st.speed_factor data₃ else .ok data₃

/-- Settings of the filename-and-layer branch (`file_name` is already
resolved against the job name, lines 171-174; `scroll` is the value the
code reads under the key `"scroll"`). -/
structure FLSettings where
  file_name : String
  addPrefixPrinting : Bool
  scroll : Bool
  startNum : ℤ
  maxlayer : Bool
  add_m118_line : Bool

/-- Lines 170-180: the fixed prefix of every filename-mode display line. -/
def lcdText (s : FLSettings) : String :=
  "M117 " ++ (if s.addPrefixPrinting then "Printing " else "")
    ++ (if s.scroll = false then "Layer " else s.file_name ++ " - Layer ")

/-- Lines 186-206: the line loop of one section in filename mode.
`max_layer` is `none` while it still holds the initial integer `0` (using
it in string concatenation would raise `TypeError`).  The `for` iterates
over the list it inserts into — the insertion position is
`lines.index(line) + 1`, the first occurrence of the current line's value
— so the iteration is index-based with fuel; exhausting the fuel models
the unbounded loop the Python code enters when an insertion lands at or
before the iteration position (duplicate `";LAYER:"` line values). -/
def flLines (s : FLSettings) :
    ℕ → List String → ℕ → Option String → ℤ → String →
    Except Unit (List String × Option String × ℤ)
  | 0, _, _, _, _, _ => .error ()
  | fuel+1, lines, idx, max_layer, i, display_text =>
    match lines.get? idx with
    | none => .ok (lines, max_layer, i)
    | some line =>
      let mlRes : Except Unit (Option String) :=
        if pyStartsWith line ";LAYER_COUNT:" then
          let v := (pySplit line ":").getD 1 ""
          if s.startNum = 0 then
            match pyToInt? v with
            | none => .error ()
            | some n => .ok (some (toString (n - 1)))
          else .ok (some v)
        else .ok max_layer
      match mlRes with
      | .error e => .error e
      | .ok max_layer =>
        if pyStartsWith line ";LAYER:" then
          let dtRes : Except Unit String :=
            if s.maxlayer then
              match max_layer with
              | none => .error ()
              | some ml =>
                let dt := display_text ++ " of " ++ ml
                .ok (if s.scroll = false then dt ++ " " ++ s.file_name else dt)
            else
              .ok (if s.scroll = false then display_text ++ " " ++ s.file_name ++ "!"
                   else display_text ++ "!")
          match dtRes with
          | .error e => .error e
          | .ok display_text =>
            let line_index := lines.indexOf line
            let lines := lines.insertIdx (line_index + 1) display_text
            let lines :=
              if s.add_m118_line then
                lines.insertIdx (line_index + 2) (pyReplaceFirst display_text "M117" "M118")
              else lines
            flLines s fuel lines (idx + 1) max_layer (i + 1) display_text
        else flLines s fuel lines (idx + 1) max_layer i display_text

/-- Lines 182-208, one iteration of `for layer in data` in filename mode:
`display_text` restarts from `lcd_text + str(i)` for each section. -/
def flSection (s : FLSettings) (fuel : ℕ) (lcd_text : String)
    (max_layer : Option String) (i : ℤ) (sec : String) :
    Except Unit (List String × Option String × ℤ) :=
  flLines s fuel (pySplit sec "\n") 0 max_layer i (lcd_text ++ toString i)

/-- Lines 182-208: the section loop of filename mode.  Each step reads
`data[k]`, processes its lines, and writes the joined result back at
`data.index(layer)` — the first position whose value equals the section
just read. -/
def flExecuteGo (s : FLSettings) (lcd_text : String) (fuel : ℕ) :
    ℕ → ℕ → Doc → Option String → ℤ → Except Unit Doc
  | 0, _, data, _, _ => .ok data
  | n+1, k, data, max_layer, i =>
    match data.get? k with
    | none => .ok data
    | some layer =>
      match flSection s fuel lcd_text max_layer i layer with
      | .error e => .error e
      | .ok (lines', ml', i') =>
        let layer_index := data.indexOf layer
        flExecuteGo s lcd_text fuel n (k + 1)
          (data.set layer_index (String.intercalate "\n" lines')) ml' i'

/-- Lines 168-212 of `DisplayInfoOnLCD.execute` with
`display_option == "filename_layer"` (the finish-time notification is not
part of the document transform): `max_layer` starts as the integer 0,
`i = startNum`. -/
def flExecute (s : FLSettings) (fuel : ℕ) (data : Doc) : Except Unit Doc :=
  flExecuteGo s (lcdText s) fuel data.length 0 data none s.startNum

/-- A g-code line that is neither a layer marker nor a layer-count marker:
the filename-mode line loop passes over such lines without any effect. -/
def plainLine (l : String) : Bool :=
  !(pyStartsWith l ";LAYER:") && !(pyStartsWith l ";LAYER_COUNT:")

/-- A well-formed layer section for the countdown passes: its lines contain
exactly one `";TIME_ELAPSED:"` line, which parses to the value `v`. -/
def oneTE (sec : String) (v : ℚ) : Prop :=
  ∃ pre post te, pySplit sec "\n" = pre ++ te :: post ∧
    (∀ l ∈ pre, pyStartsWith l ";TIME_ELAPSED:" = false) ∧
    (∀ l ∈ post, pyStartsWith l ";TIME_ELAPSED:" = false) ∧
    pyStartsWith te ";TIME_ELAPSED:" = true ∧
    parseFloat? ((pySplit te ":").getD 1 "") = some v

/-- Appending the processed marker makes the substring test on the first
section succeed: needed for the idempotence arguments. -/
theorem strContains_append_marker (s : String) :
    strContains (s ++ ";POSTPROCESSED\n") ";POSTPROCESSED" = true := by
  have hdata : (s ++ ";POSTPROCESSED\n").toList
      = s.toList ++ (";POSTPROCESSED".toList ++ ['\n']) := by
    simp [String.toList]
  have hinf : ";POSTPROCESSED".toList <:+: (s ++ ";POSTPROCESSED\n").toList := by
    rw [hdata]
    exact ⟨s.toList, ['\n'], by simp⟩
  unfold strContains
  exact decide_eq_true hinf

/-- C1: a document already carrying the processed marker in its first section
passes through `execute` untouched (no script is applied), and whenever a
pipeline run completes with output `out`, running the pipeline again on
`out` returns `out` unchanged: the pipeline is idempotent. -/
theorem pipeline_marker_guard_and_idempotent :
    (∀ (script_list : List Script) (first : String) (rest : Doc),
      strContains first ";POSTPROCESSED" = true →
      postProcessingExecute script_list (first :: rest) = .ok (first :: rest)) ∧
    (∀ (script_list : List Script) (doc out : Doc),
      postProcessingExecute script_list doc = .ok out →
      postProcessingExecute script_list out = .ok out) := by
  constructor
  · intro script_list first rest h
    simp [postProcessingExecute, h]
  · intro script_list doc out h
    match doc with
    | [] =>
      simp only [postProcessingExecute] at h
      cases h
      simp [postProcessingExecute]
    | first :: rest =>
      by_cases hm : strContains first ";POSTPROCESSED" = true
      · simp only [postProcessingExecute, hm, if_true] at h
        cases h
        simp [postProcessingExecute, hm]
      · rw [Bool.not_eq_true] at hm
        by_cases hs : script_list.isEmpty
        · have hrun : runScriptList script_list (first :: rest) = first :: rest := by
            cases script_list with
            | nil => rfl
            | cons a l => simp [List.isEmpty] at hs
          simp only [postProcessingExecute, hm, Bool.false_eq_true, if_false,
            hrun, hs, if_true] at h
          cases h
          simp [postProcessingExecute, hm, hrun, hs]
        · simp only [postProcessingExecute, hm, Bool.false_eq_true, if_false, hs,
            Bool.false_eq_true] at h
          cases hd : runScriptList script_list (first :: rest) with
          | nil => rw [hd] at h; simp at h
          | cons h0 t =>
            rw [hd] at h
            simp only [if_false] at h
            cases h
            simp [postProcessingExecute, strContains_append_marker]

/-- C1 witness: concrete instantiations of both halves of the idempotence
theorem. -/
theorem pipeline_marker_guard_and_idempotent_witness :
    postProcessingExecute [] [";POSTPROCESSED\nG28"] = .ok [";POSTPROCESSED\nG28"] ∧
    postProcessingExecute [⟨fun d => ("G1 X0" :: d, true)⟩] ["G28"]
      = .ok ["G1 X0;POSTPROCESSED\n", "G28"] ∧
    postProcessingExecute [⟨fun d => ("G1 X0" :: d, true)⟩]
        ["G1 X0;POSTPROCESSED\n", "G28"]
      = .ok ["G1 X0;POSTPROCESSED\n", "G28"] := by
  refine ⟨?_, ?_, ?_⟩
  · exact pipeline_marker_guard_and_idempotent.1 [] ";POSTPROCESSED\nG28" []
      (by decide)
  · rfl
  · exact pipeline_marker_guard_and_idempotent.2
      [⟨fun d => ("G1 X0" :: d, true)⟩] ["G28"]
      ["G1 X0;POSTPROCESSED\n", "G28"] rfl

/-- Auxiliary unconditional form of the exception-containment property of
the script loop. -/
theorem runScriptList_split (xs : List Script) (s : Script)
    (ys : List Script) (d : Doc) :
    runScriptList (xs ++ s :: ys) d
      = runScriptList ys (s.run (runScriptList xs d)).1 ∧
    runScriptList (xs ++ s :: ys) d
      = runScriptList (xs ++ (⟨fun doc => ((s.run doc).1, true)⟩ : Script) :: ys) d := by
  induction xs generalizing d with
  | nil => exact ⟨rfl, rfl⟩
  | cons a l ih =>
    simpa [runScriptList] using ih (a.run d).1

/-- C2: if the script at some position in the list raises (its success flag
on the document it receives is `false`), every later script still runs, in
order, on the document exactly as the failing script left it; moreover the
pipeline's result is the same as if that script had completed normally with
the same document effect, so the exception never influences (and in the
total function `runScriptList` can never escape to) the caller. -/
theorem script_exception_is_contained (xs : List Script) (s : Script)
    (ys : List Script) (d : Doc)
    (_hfail : (s.run (runScriptList xs d)).2 = false) :
    runScriptList (xs ++ s :: ys) d
      = runScriptList ys (s.run (runScriptList xs d)).1 ∧
    runScriptList (xs ++ s :: ys) d
      = runScriptList (xs ++ (⟨fun doc => ((s.run doc).1, true)⟩ : Script) :: ys) d :=
  runScriptList_split xs s ys d

/-- C2 witness: a concrete two-script pipeline whose first script raises;
the second script still runs on the document the first one left behind. -/
theorem script_exception_is_contained_witness :
    (Script.run ⟨fun doc => (doc ++ ["half-edit"], false)⟩
        (runScriptList [] ["start"])).2 = false ∧
    runScriptList
        [⟨fun doc => (doc ++ ["half-edit"], false)⟩,
         ⟨fun doc => ("G1" :: doc, true)⟩] ["start"]
      = ["G1", "start", "half-edit"] := by
  refine ⟨rfl, ?_⟩
  have h := script_exception_is_contained []
      ⟨fun doc => (doc ++ ["half-edit"], false)⟩
      [⟨fun doc => ("G1" :: doc, true)⟩] ["start"] rfl
  rw [List.nil_append] at h
  rw [h.1]
  rfl

/-- C9: on an unmarked document, a run with a non-empty script list appends
`";POSTPROCESSED\n"` to the first section of whatever document the scripts
left (no success of any script is required — the theorem quantifies over all
script behaviours, including a list in which every script raises), the
result therefore carries the processed marker, and a subsequent run is a
no-op. -/
theorem marker_appended_even_if_all_scripts_fail (script_list : List Script)
    (first h0 : String) (rest t : Doc)
    (hne : script_list ≠ [])
    (hmark : strContains first ";POSTPROCESSED" = false)
    (hrun : runScriptList script_list (first :: rest) = h0 :: t) :
    postProcessingExecute script_list (first :: rest)
      = .ok ((h0 ++ ";POSTPROCESSED\n") :: t) ∧
    strContains (h0 ++ ";POSTPROCESSED\n") ";POSTPROCESSED" = true ∧
    postProcessingExecute script_list ((h0 ++ ";POSTPROCESSED\n") :: t)
      = .ok ((h0 ++ ";POSTPROCESSED\n") :: t) := by
  have hs : script_list.isEmpty = false := by
    cases script_list with
    | nil => exact absurd rfl hne
    | cons a l => rfl
  refine ⟨?_, strContains_append_marker h0, ?_⟩
  · simp [postProcessingExecute, hmark, hs, hrun]
  · simp [postProcessingExecute, strContains_append_marker]

/-- C9 witness: a single always-raising script on a fresh document; the
output is still marked processed and the second run changes nothing. -/
theorem marker_appended_even_if_all_scripts_fail_witness :
    postProcessingExecute [⟨fun d => (d, false)⟩] ["G28"]
      = .ok ["G28;POSTPROCESSED\n"] ∧
    strContains "G28;POSTPROCESSED\n" ";POSTPROCESSED" = true ∧
    postProcessingExecute [⟨fun d => (d, false)⟩] ["G28;POSTPROCESSED\n"]
      = .ok ["G28;POSTPROCESSED\n"] := by
  have h := marker_appended_even_if_all_scripts_fail
      [⟨fun d => (d, false)⟩] "G28" "G28" [] []
      (by simp) (by decide) rfl
  exact h

/-- Minutes produced by `divmod(m, 60)` lie in `[0, 60)`, so the code's
conditional `"0"` prefix is exactly two-digit zero-padding. -/
theorem padTwo_eq_cond (n : ℤ) (h0 : 0 ≤ n) (h60 : n < 60) :
    padTwo n = (if n < 10 then "0" else "") ++ toString n := by
  interval_cases n <;> decide

/-- C6: a malformed `print_start_time` (wrong length or no colon) is
silently discarded: `message_to_user` takes the current clock time together
with the 900 second lag, and this path cannot raise. -/
theorem malformed_start_time_falls_back (print_start_time : String)
    (nowH nowM nowS : ℤ)
    (h : print_start_time.length ≠ 5 ∨ strContains print_start_time ":" = false) :
    startParams print_start_time nowH nowM nowS = .ok (nowH, nowM, nowS, 900) := by
  unfold startParams
  rcases h with h | h
  · simp [h]
  · simp [h]

/-- C6 witness: the claim's own example `"9:3"` (length 3). -/
theorem malformed_start_time_falls_back_witness :
    startParams "9:3" 10 20 30 = .ok (10, 20, 30, 900) :=
  malformed_start_time_falls_back "9:3" 10 20 30 (Or.inl (by decide))

/-- C10: the hour 12 (noon) is rendered `"12:"` with suffix `" AM"`; the PM
suffix appears exactly for hours strictly greater than 12; hour 0 is shown
as `"12:"` with AM; hours 1 through 12 are passed through from the padded
`%H` string, with AM. -/
theorem noon_rendered_as_am :
    to12Hour 12 = ("12:", " AM") ∧
    (∀ H : ℕ, H < 24 → ((to12Hour H).2 = " PM" ↔ 12 < H)) ∧
    to12Hour 0 = ("12:", " AM") ∧
    (∀ H : ℕ, H < 24 → 1 ≤ H → H ≤ 12 → to12Hour H = (strftimeH H ++ ":", " AM")) := by
  refine ⟨by decide, ?_, by decide, ?_⟩ <;> decide

/-- C10 witness: instantiations of the quantified parts at hours 13 and 9. -/
theorem noon_rendered_as_am_witness :
    ((to12Hour 13).2 = " PM" ↔ 12 < 13) ∧
    to12Hour 9 = (strftimeH 9 ++ ":", " AM") :=
  ⟨noon_rendered_as_am.2.1 13 (by decide),
   noon_rendered_as_am.2.2.2 9 (by decide) (by decide) (by decide)⟩

/-- C3: the remaining-time suffix built by the display-progress loop is
exactly the claim's formula: `" | ET "` followed by `"<h>h<mm>m"` with
two-digit zero-padded minutes when the scaled remaining hours are positive,
else `"<m>m"` unpadded with no hour segment. -/
theorem remaining_time_suffix_matches_spec
    (time_total time_elapsed : ℤ) (speed_factor : ℚ) :
    timeRemainingDisplay time_total time_elapsed speed_factor
      = specRemainingSuffix time_total time_elapsed speed_factor := by
  unfold timeRemainingDisplay specRemainingSuffix
  have h0 : (0:ℤ) ≤ Int.emod (pyInt ((Int.fdiv (time_total - time_elapsed) 60 : ℤ) * speed_factor)) 60 :=
    Int.emod_nonneg _ (by norm_num)
  have h60 : Int.emod (pyInt ((Int.fdiv (time_total - time_elapsed) 60 : ℤ) * speed_factor)) 60 < 60 :=
    Int.emod_lt_of_pos _ (by norm_num)
  dsimp only
  rw [padTwo_eq_cond _ h0 h60]
  simp [String.append_assoc]

/-- `pyRound` is the identity on integers. -/
theorem pyRound_intCast (n : ℤ) : pyRound (n : ℚ) = n := by
  unfold pyRound
  rw [Int.floor_intCast]
  norm_num

/-- `pyRound` moves its argument by at most one half (true for any
round-to-nearest tie rule, in particular Python's half-to-even). -/
theorem abs_pyRound_sub (q : ℚ) : |(pyRound q : ℚ) - q| ≤ 1/2 := by
  have hfr : q - (⌊q⌋ : ℚ) = Int.fract q := rfl
  have h0 : 0 ≤ Int.fract q := Int.fract_nonneg q
  have h1 : Int.fract q < 1 := Int.fract_lt_one q
  unfold pyRound
  rw [abs_le]
  rw [hfr]
  by_cases hlt : Int.fract q < 1/2
  · rw [if_pos hlt]
    constructor <;> [skip; skip] <;>
      · have := Int.self_sub_floor q
        push_cast
        nlinarith [Int.self_sub_floor q]
  · rw [if_neg hlt]
    by_cases hgt : 1/2 < Int.fract q
    · rw [if_pos hgt]
      constructor <;>
        · push_cast
          nlinarith [Int.self_sub_floor q]
    · have heq : Int.fract q = 1/2 := le_antisymm (not_lt.mp hgt) (not_lt.mp hlt)
      by_cases hev : ⌊q⌋ % 2 = 0
      · rw [if_neg hgt, if_pos hev]
        constructor <;>
          · push_cast
            nlinarith [Int.self_sub_floor q, heq]
      · rw [if_neg hgt, if_neg hev]
        constructor <;>
          · push_cast
            nlinarith [Int.self_sub_floor q, heq]

/-- C7: for a positive fudge factor and a raw `";TIME:"` estimate, the
displayed adjusted estimate (`hr` hours plus `mmm` rounded minutes) is
within 60 seconds of the exact scaled duration `s * f`. -/
theorem adjusted_estimate_within_60s (s : ℤ) (f : ℚ) (_hs : 0 ≤ s) (_hf : 0 < f) :
    |((adjustedEstimate s f).1 * 3600 + (adjustedEstimate s f).2 * 60 : ℚ)
      - (s : ℚ) * f| ≤ 60 := by
  unfold adjustedEstimate
  dsimp only
  rw [pyRound_intCast]
  set x : ℚ := (s : ℚ) * f / 3600 with hx
  have hsf : (s : ℚ) * f = 3600 * x := by
    rw [hx]; ring
  have hb := abs_pyRound_sub ((x - (⌊x⌋ : ℚ)) * 60)
  have heq : ((⌊x⌋ : ℚ) * 3600 + (pyRound ((x - (⌊x⌋ : ℚ)) * 60) : ℚ) * 60
      - (s : ℚ) * f)
      = 60 * ((pyRound ((x - (⌊x⌋ : ℚ)) * 60) : ℚ) - (x - (⌊x⌋ : ℚ)) * 60) := by
    rw [hsf]; ring
  rw [heq, abs_mul]
  have : |(60 : ℚ)| = 60 := by norm_num
  rw [this]
  nlinarith [hb]

/-- C7 witness: fudge factor 1 and raw estimate 3600 s; the displayed
1 h 0 min is exactly the scaled time. -/
theorem adjusted_estimate_within_60s_witness :
    (0 : ℤ) ≤ 3600 ∧ (0 : ℚ) < 1 ∧
    |((adjustedEstimate 3600 1).1 * 3600 + (adjustedEstimate 3600 1).2 * 60 : ℚ)
      - ((3600 : ℤ) : ℚ) * 1| ≤ 60 := by
  refine ⟨by norm_num, by norm_num, ?_⟩
  exact adjusted_estimate_within_60s 3600 1 (by norm_num) (by norm_num)

/-- One iteration of the per-layer loop changes neither the length of the
document nor any section that does not contain the `";LAYER:"` substring
(the skip branch leaves everything alone; the annotate branch writes only
to the marker-containing section it read). -/
theorem dpBody_preserves (st : DPSettings) (nl tt : ℤ) (fli : ℕ) (base : String)
    (data : Doc) (cl te : ℤ) (c : ℕ) (d' : Doc) (cl' te' : ℤ)
    (h : dpBody st nl tt fli base (data, cl, te) c = .ok (d', cl', te')) :
    d'.length = data.length ∧
    ∀ i sec₀, data.get? i = some sec₀ → strContains sec₀ ";LAYER:" = false →
      d'.get? i = data.get? i := by
  simp only [dpBody] at h
  split at h
  · cases h
  next sec hget =>
    split at h
    · cases h
      exact ⟨rfl, fun i sec₀ _ _ => rfl⟩
    next hmark =>
      have hmark' : strContains sec ";LAYER:" = true := by
        revert hmark
        cases strContains sec ";LAYER:" <;> simp
      have hkey : ∀ (newsec : String),
          ((data.set (fli + c) newsec).length = data.length ∧
            ∀ i sec₀, data.get? i = some sec₀ → strContains sec₀ ";LAYER:" = false →
              (data.set (fli + c) newsec).get? i = data.get? i) := by
        intro newsec
        refine ⟨List.length_set .., ?_⟩
        intro i sec₀ hi hunmarked
        rcases eq_or_ne (fli + c) i with rfl | hne
        · rw [hget] at hi
          cases hi
          rw [hmark'] at hunmarked
          cases hunmarked
        · exact List.get?_set_ne _ _ hne
      split at h
      · split at h
        · cases h
        next te₂ hte =>
          cases h
          exact hkey _
      · cases h
        exact hkey _

/-- The whole per-layer loop preserves length and every section without the
`";LAYER:"` substring, by induction along the counter list. -/
theorem dpLoopGo_preserves (st : DPSettings) (nl tt : ℤ) (fli : ℕ) (base : String)
    (cs : List ℕ) (data : Doc) (cl te : ℤ) (d' : Doc) (cl' te' : ℤ)
    (h : dpLoopGo st nl tt fli base cs (data, cl, te) = .ok (d', cl', te')) :
    d'.length = data.length ∧
    ∀ i sec₀, data.get? i = some sec₀ → strContains sec₀ ";LAYER:" = false →
      d'.get? i = data.get? i := by
  induction cs generalizing data cl te with
  | nil =>
    simp only [dpLoopGo] at h
    cases h
    exact ⟨rfl, fun i sec₀ _ _ => rfl⟩
  | cons c cs ih =>
    simp only [dpLoopGo] at h
    split at h
    · cases h
    next acc' hbody =>
      obtain ⟨d₁, cl₁, te₁⟩ := acc'
      have h1 := dpBody_preserves st nl tt fli base data cl te c d₁ cl₁ te₁ hbody
      have h2 := ih d₁ cl₁ te₁ h
      refine ⟨h2.1.trans h1.1, ?_⟩
      intro i sec₀ hi hunmarked
      have hmid : d₁.get? i = data.get? i := h1.2 i sec₀ hi hunmarked
      have : d'.get? i = d₁.get? i := by
        apply h2.2 i sec₀ _ hunmarked
        rw [hmid, hi]
      rw [this, hmid]

/-- C5 (amended): the per-layer annotation loop modifies only sections that
contain the `";LAYER:"` substring; in particular, whenever the final
section (the epilogue) lacks that substring it is left exactly as the loop
found it, and the loop never changes the number of sections.  (The original
claim — that the loop can never even reach the final section — is refuted
by the counterexample: the loop counter runs over `range(len(data) - 2)`
but starts reading at `first_layer_index`, which is 2 in a standard
document, so the last indices it visits include `len(data) - 1`.) -/
theorem annotation_loop_spares_unmarked_sections
    (st : DPSettings) (nl tt : ℤ) (fli : ℕ) (base : String)
    (data : Doc) (d' : Doc) (cl te : ℤ)
    (h : dpLoop st nl tt fli base data = .ok (d', cl, te))
    (epi : String)
    (hepi : data.get? (data.length - 1) = some epi)
    (hlast : strContains epi ";LAYER:" = false) :
    d'.length = data.length ∧
    d'.get? (data.length - 1) = data.get? (data.length - 1) ∧
    ∀ i sec₀, data.get? i = some sec₀ → strContains sec₀ ";LAYER:" = false →
      d'.get? i = data.get? i := by
  have hp := dpLoopGo_preserves st nl tt fli base (List.range (data.length - 2))
    data 0 0 d' cl te h
  exact ⟨hp.1, hp.2 _ epi hepi hlast, hp.2⟩

/-- C5 counterexample: with the first layer section at index 2 (one comment
preamble section plus one start-gcode section, the standard layout) the
per-layer loop reads and rewrites the final section: the epilogue here
contains `";LAYER:1"` and receives an `"M117 layer 2/0"` display line, so
the loop neither stops before the epilogue nor leaves it untouched. -/
theorem annotation_loop_reaches_epilogue_counterexample :
    preScan ["pre", "pre2", ";LAYER:0\nG1", ";LAYER:1\nG1 epilogue"]
      = .ok (2, 0, 0) ∧
    dpLoop ⟨true, false, false, 1, false⟩ 0 0 2 "layer "
        ["pre", "pre2", ";LAYER:0\nG1", ";LAYER:1\nG1 epilogue"]
      = .ok (["pre", "pre2", ";LAYER:0\nM117 layer 1/0\nG1",
              ";LAYER:1\nM117 layer 2/0\nG1 epilogue"], 2, 0) ∧
    (";LAYER:1\nM117 layer 2/0\nG1 epilogue" ≠ ";LAYER:1\nG1 epilogue") :=
  ⟨by rfl, by rfl, by decide⟩

/-- C5 witness: a document whose epilogue has no layer marker; the loop
(with `first_layer_index = 2`, as `preScan` yields for this document)
returns it unchanged in the final slot. -/
theorem annotation_loop_spares_unmarked_sections_witness :
    strContains "no marker epilogue" ";LAYER:" = false ∧
    ([("pre" : String), "pre2", ";LAYER:0\nM117 layer 1/0\nG1",
        "no marker epilogue"].length
      = [("pre" : String), "pre2", ";LAYER:0\nG1", "no marker epilogue"].length ∧
     [("pre" : String), "pre2", ";LAYER:0\nM117 layer 1/0\nG1",
        "no marker epilogue"].get? 3
      = [("pre" : String), "pre2", ";LAYER:0\nG1", "no marker epilogue"].get? 3 ∧
     ∀ i sec₀,
       [("pre" : String), "pre2", ";LAYER:0\nG1", "no marker epilogue"].get? i
           = some sec₀ →
       strContains sec₀ ";LAYER:" = false →
       [("pre" : String), "pre2", ";LAYER:0\nM117 layer 1/0\nG1",
           "no marker epilogue"].get? i
         = [("pre" : String), "pre2", ";LAYER:0\nG1", "no marker epilogue"].get? i) := by
  refine ⟨by decide, ?_⟩
  exact annotation_loop_spares_unmarked_sections ⟨true, false, false, 1, false⟩
    0 0 2 "layer " ["pre", "pre2", ";LAYER:0\nG1", "no marker epilogue"]
    ["pre", "pre2", ";LAYER:0\nM117 layer 1/0\nG1", "no marker epilogue"] 1 0
    (by rfl) "no marker epilogue" (by rfl) (by decide)

/-- A string whose first character is `'M'` is a `plainLine` (marker
prefixes begin with `';'`). -/
theorem plainLine_of_headM (t : String) (h : t.toList.head? = some 'M') :
    plainLine t = true := by
  unfold plainLine pyStartsWith
  cases ht : t.toList with
  | nil => rw [ht] at h; cases h
  | cons c r =>
    rw [ht] at h
    simp only [List.head?] at h
    cases h
    simp [List.isPrefixOf]

/-- Appending on the right keeps the first character. -/
theorem headM_append (t x : String) (h : t.toList.head? = some 'M') :
    (t ++ x).toList.head? = some 'M' := by
  have hd : (t ++ x).toList = t.toList ++ x.toList := by
    simp [String.toList]
  rw [hd]
  cases ht : t.toList with
  | nil => rw [ht] at h; cases h
  | cons c r => rw [ht] at h; simpa using h

/-- A display text starting with `"M117 "` has first character `'M'`. -/
theorem headM_of_M117 (t : String) (h : pyStartsWith t "M117 " = true) :
    t.toList.head? = some 'M' := by
  unfold pyStartsWith at h
  cases ht : t.toList with
  | nil => rw [ht] at h; simp [List.isPrefixOf] at h
  | cons c r =>
    rw [ht] at h
    simp only [List.isPrefixOf, Bool.and_eq_true, beq_iff_eq] at h
    simp [h.1.symm]

/-- `s.replace("M117", "M118", 1)` of a text starting with `"M117 "` starts
with `'M'` again. -/
theorem headM_replaceFirst (t : String) (h : pyStartsWith t "M117 " = true) :
    (pyReplaceFirst t "M117" "M118").toList.head? = some 'M' := by
  unfold pyStartsWith at h
  unfold pyReplaceFirst
  cases ht : t.toList with
  | nil => rw [ht] at h; simp [List.isPrefixOf] at h
  | cons c r =>
    rw [ht] at h
    simp only [List.isPrefixOf, Bool.and_eq_true, beq_iff_eq] at h
    obtain ⟨hc, h2⟩ := h
    cases r with
    | nil => simp [List.isPrefixOf] at h2
    | cons c2 r2 =>
      simp only [List.isPrefixOf, Bool.and_eq_true, beq_iff_eq] at h2
      obtain ⟨hc2, h3⟩ := h2
      cases r2 with
      | nil => simp [List.isPrefixOf] at h3
      | cons c3 r3 =>
        simp only [List.isPrefixOf, Bool.and_eq_true, beq_iff_eq] at h3
        obtain ⟨hc3, h4⟩ := h3
        cases r3 with
        | nil => simp [List.isPrefixOf] at h4
        | cons c4 r4 =>
          simp only [List.isPrefixOf, Bool.and_eq_true, beq_iff_eq] at h4
          obtain ⟨hc4, _⟩ := h4
          subst hc hc2 hc3 hc4
          simp [replaceFirstCh, List.isPrefixOf, String.toList]

/-- The filename-mode line loop ends once the index runs past the list. -/
theorem flLines_end (s : FLSettings) (fuel : ℕ) (lines : List String)
    (idx : ℕ) (ml : Option String) (i : ℤ) (dt : String)
    (h : lines.length ≤ idx) :
    flLines s (fuel + 1) lines idx ml i dt = .ok (lines, ml, i) := by
  have hg : lines[idx]? = none := List.getElem?_eq_none h
  simp [flLines, hg]

/-- Stepping the filename-mode line loop over a line that is neither
marker: nothing changes but the index. -/
theorem flLines_step (s : FLSettings) (fuel : ℕ) (lines : List String)
    (idx : ℕ) (ml : Option String) (i : ℤ) (dt : String) (line : String)
    (hg : lines[idx]? = some line) (hp : plainLine line = true) :
    flLines s (fuel + 1) lines idx ml i dt = flLines s fuel lines (idx + 1) ml i dt := by
  have h1 : pyStartsWith line ";LAYER:" = false := by
    unfold plainLine at hp
    simp only [Bool.and_eq_true, Bool.not_eq_true'] at hp
    exact hp.1
  have h2 : pyStartsWith line ";LAYER_COUNT:" = false := by
    unfold plainLine at hp
    simp only [Bool.and_eq_true, Bool.not_eq_true'] at hp
    exact hp.2
  simp [flLines, hg, h1, h2]

/-- Running the filename-mode line loop over a block of plain lines
advances the index across the block and changes nothing else. -/
theorem flLines_skip_run (s : FLSettings) (seg : List String) :
    ∀ (fuel : ℕ) (lines : List String) (idx : ℕ) (ml : Option String)
      (i : ℤ) (dt : String),
    (lines.drop idx).take seg.length = seg →
    (∀ l ∈ seg, plainLine l = true) →
    flLines s (seg.length + fuel) lines idx ml i dt
      = flLines s fuel lines (idx + seg.length) ml i dt := by
  induction seg with
  | nil => intro fuel lines idx ml i dt _ _; simp
  | cons a seg ih =>
    intro fuel lines idx ml i dt htake hplain
    cases hd : lines.drop idx with
    | nil => rw [hd] at htake; simp at htake
    | cons b t =>
      rw [hd] at htake
      simp only [List.length_cons, List.take_succ_cons, List.cons.injEq] at htake
      obtain ⟨hb, ht⟩ := htake
      have hg : lines[idx]? = some a := by
        have h0 : (lines.drop idx)[0]? = lines[idx + 0]? := List.getElem?_drop ..
        rw [hd] at h0
        rw [← hb]
        simpa using h0.symm
      have hdrop : lines.drop (idx + 1) = t := by
        have h1 : List.drop 1 (lines.drop idx) = lines.drop (idx + 1) :=
          List.drop_drop 1 idx lines
        rw [hd] at h1
        simpa using h1.symm
      have hstep := flLines_step s (seg.length + fuel) lines idx ml i dt a hg
        (hplain a (by simp))
      have he1 : (a :: seg).length + fuel = seg.length + fuel + 1 := by
        simp only [List.length_cons]; omega
      have he2 : idx + 1 + seg.length = idx + (a :: seg).length := by
        simp only [List.length_cons]; omega
      rw [he1, hstep, ← he2]
      apply ih fuel lines (idx + 1) ml i dt _ (fun l hl => hplain l (by simp [hl]))
      rw [hdrop]
      exact ht
  
/-- C8 helper: a section whose lines are all plain is passed over without
consuming an ordinal, without changing the line list and without raising. -/
theorem flLines_all_plain (s : FLSettings) (lines : List String) (fuel : ℕ)
    (ml : Option String) (i : ℤ) (dt : String)
    (hplain : ∀ l ∈ lines, plainLine l = true) :
    flLines s (lines.length + fuel + 1) lines 0 ml i dt = .ok (lines, ml, i) := by
  have h1 := flLines_skip_run s lines (fuel + 1) lines 0 ml i dt (by simp) hplain
  have h2 := flLines_end s fuel lines lines.length ml i dt le_rfl
  calc flLines s (lines.length + (fuel + 1)) lines 0 ml i dt
      = flLines s (fuel + 1) lines (0 + lines.length) ml i dt := h1
    _ = .ok (lines, ml, i) := by rw [Nat.zero_add]; exact h2

/-- `lines.index(line)` finds the first occurrence: when the value is absent
from the prefix, the index is the prefix length. -/
theorem indexOf_append_cons (pre post : List String) (marker : String)
    (h : marker ∉ pre) :
    List.indexOf marker (pre ++ marker :: post) = pre.length := by
  induction pre with
  | nil => simp
  | cons a l ih =>
    have hne : (a == marker) = false := by
      simp only [List.mem_cons, not_or] at h
      simp [Ne.symm h.1]
    simp only [List.cons_append, List.indexOf_cons, hne, cond_false, List.length_cons]
    rw [ih (fun hm => h (by simp [hm]))]

/-- `lines.insert(n, a)` after an `n`-element prefix splices the new element
between prefix and suffix. -/
theorem insertIdx_at_length (l1 l2 : List String) (a : String) :
    List.insertIdx l1.length a (l1 ++ l2) = l1 ++ a :: l2 := by
  induction l1 with
  | nil => rfl
  | cons b l ih => simp [List.insertIdx_succ_cons, ih]

/-- Running the filename-mode line loop from `idx` over only plain lines
reaches the end with no effect. -/
theorem flLines_all_plain_from (s : FLSettings) (lines : List String)
    (idx fuel : ℕ) (ml : Option String) (i : ℤ) (dt : String)
    (hplain : ∀ l ∈ lines.drop idx, plainLine l = true) :
    flLines s ((lines.drop idx).length + fuel + 1) lines idx ml i dt
      = .ok (lines, ml, i) := by
  have h1 := flLines_skip_run s (lines.drop idx) (fuel + 1) lines idx ml i dt
    (by rw [List.take_length]) hplain
  have hlen : lines.length ≤ idx + (lines.drop idx).length := by
    simp only [List.length_drop]
    omega
  calc flLines s ((lines.drop idx).length + fuel + 1) lines idx ml i dt
      = flLines s ((lines.drop idx).length + (fuel + 1)) lines idx ml i dt := by
        rw [Nat.add_assoc]
    _ = flLines s (fuel + 1) lines (idx + (lines.drop idx).length) ml i dt := h1
    _ = .ok (lines, ml, i) := flLines_end s fuel lines _ ml i dt hlen

/-- Prefix tests extend along appends on the right. -/
theorem pyStartsWith_append_left (t x p : String)
    (h : pyStartsWith t p = true) : pyStartsWith (t ++ x) p = true := by
  unfold pyStartsWith at h ⊢
  rw [List.isPrefixOf_iff_prefix] at h ⊢
  have hd : (t ++ x).toList = t.toList ++ x.toList := by simp [String.toList]
  rw [hd]
  exact h.trans (List.prefix_append ..)

/-- After the display line (and the optional `M118` mirror) have been
inserted behind the marker line, the rest of the filename-mode line loop
walks over display lines and plain lines only and stops with no further
effect. -/
theorem flLines_insert_tail (s : FLSettings) (pre post : List String)
    (marker dt' : String) (fuel : ℕ) (ml : Option String) (j : ℤ)
    (hpost : ∀ l ∈ post, plainLine l = true)
    (hdt' : pyStartsWith dt' "M117 " = true) :
    ∃ lines', flLines s (post.length + fuel + 3)
      (if s.add_m118_line = true then
        List.insertIdx (pre.length + 2) (pyReplaceFirst dt' "M117" "M118")
          (List.insertIdx (pre.length + 1) dt' (pre ++ marker :: post))
      else List.insertIdx (pre.length + 1) dt' (pre ++ marker :: post))
      (pre.length + 1) ml j dt'
      = .ok (lines', ml, j) := by
  have hplain_dt' : plainLine dt' = true :=
    plainLine_of_headM dt' (headM_of_M117 dt' hdt')
  have hins1 : List.insertIdx (pre.length + 1) dt' (pre ++ marker :: post)
      = (pre ++ [marker]) ++ dt' :: post := by
    have h := insertIdx_at_length (pre ++ [marker]) post dt'
    simpa using h
  by_cases hm : s.add_m118_line = true
  · rw [if_pos hm, hins1]
    have hins2 : List.insertIdx (pre.length + 2) (pyReplaceFirst dt' "M117" "M118")
        ((pre ++ [marker]) ++ dt' :: post)
        = (pre ++ [marker]) ++ dt' :: pyReplaceFirst dt' "M117" "M118" :: post := by
      have h := insertIdx_at_length (pre ++ [marker, dt']) post
        (pyReplaceFirst dt' "M117" "M118")
      simpa using h
    rw [hins2]
    refine ⟨(pre ++ [marker]) ++ dt' :: pyReplaceFirst dt' "M117" "M118" :: post, ?_⟩
    have hdrop : ((pre ++ [marker]) ++ dt' :: pyReplaceFirst dt' "M117" "M118" :: post).drop
        (pre.length + 1) = dt' :: pyReplaceFirst dt' "M117" "M118" :: post := by
      simp
    have hplain : ∀ l ∈ ((pre ++ [marker]) ++ dt' :: pyReplaceFirst dt' "M117" "M118" :: post).drop
        (pre.length + 1), plainLine l = true := by
      rw [hdrop]
      intro l hl
      rcases List.mem_cons.mp hl with rfl | hl
      · exact hplain_dt'
      rcases List.mem_cons.mp hl with rfl | hl
      · exact plainLine_of_headM _ (headM_replaceFirst dt' hdt')
      · exact hpost l hl
    have hall := flLines_all_plain_from s
      ((pre ++ [marker]) ++ dt' :: pyReplaceFirst dt' "M117" "M118" :: post)
      (pre.length + 1) fuel ml j dt' hplain
    rw [hdrop] at hall
    have hfe : (dt' :: pyReplaceFirst dt' "M117" "M118" :: post).length + fuel + 1
        = post.length + fuel + 3 := by
      simp only [List.length_cons]; omega
    rw [hfe] at hall
    exact hall
  · rw [if_neg hm, hins1]
    refine ⟨(pre ++ [marker]) ++ dt' :: post, ?_⟩
    have hdrop : ((pre ++ [marker]) ++ dt' :: post).drop (pre.length + 1)
        = dt' :: post := by
      simp
    have hplain : ∀ l ∈ ((pre ++ [marker]) ++ dt' :: post).drop (pre.length + 1),
        plainLine l = true := by
      rw [hdrop]
      intro l hl
      rcases List.mem_cons.mp hl with rfl | hl
      · exact hplain_dt'
      · exact hpost l hl
    have hall := flLines_all_plain_from s ((pre ++ [marker]) ++ dt' :: post)
      (pre.length + 1) (fuel + 1) ml j dt' hplain
    rw [hdrop] at hall
    have hfe : (dt' :: post).length + (fuel + 1) + 1 = post.length + fuel + 3 := by
      simp only [List.length_cons]; omega
    rw [hfe] at hall
    exact hall

/-- C8 helper (filename mode): a section whose lines are plain except for a
single `";LAYER:"` marker line consumes exactly one ordinal: the loop
returns with `i + 1`, leaving `max_layer` unchanged. -/
theorem flLines_single_marker (s : FLSettings) (pre post : List String)
    (marker : String) (fuel : ℕ) (ml : Option String) (i : ℤ) (dt : String)
    (hpre : ∀ l ∈ pre, plainLine l = true)
    (hpost : ∀ l ∈ post, plainLine l = true)
    (hmk : pyStartsWith marker ";LAYER:" = true)
    (hmc : pyStartsWith marker ";LAYER_COUNT:" = false)
    (hml : s.maxlayer = false ∨ ∃ v, ml = some v)
    (hdt : pyStartsWith dt "M117 " = true) :
    ∃ lines', flLines s (pre.length + post.length + fuel + 4)
        (pre ++ marker :: post) 0 ml i dt = .ok (lines', ml, i + 1) := by
  have hfe : pre.length + post.length + fuel + 4
      = pre.length + (post.length + fuel + 3 + 1) := by omega
  rw [hfe]
  have hwalk := flLines_skip_run s pre (post.length + fuel + 3 + 1)
    (pre ++ marker :: post) 0 ml i dt
    (by simpa using List.take_left pre (marker :: post)) hpre
  rw [hwalk, Nat.zero_add]
  have hg : (pre ++ marker :: post).get? pre.length = some marker := by
    rw [List.get?_eq_getElem?, List.getElem?_append_right le_rfl]
    simp
  have hnotin : marker ∉ pre := by
    intro hm
    have hp := hpre marker hm
    unfold plainLine at hp
    simp only [Bool.and_eq_true, Bool.not_eq_true'] at hp
    rw [hp.1] at hmk
    cases hmk
  have hidx : List.indexOf marker (pre ++ marker :: post) = pre.length :=
    indexOf_append_cons _ _ _ hnotin
  by_cases hmx : s.maxlayer = true
  case neg =>
    have hml' : s.maxlayer = false := by
      revert hmx
      cases s.maxlayer <;> simp
    have hDT : pyStartsWith
        (if s.scroll = false then dt ++ " " ++ s.file_name ++ "!" else dt ++ "!")
        "M117 " = true := by
      split
      · exact pyStartsWith_append_left _ _ _
          (pyStartsWith_append_left _ _ _ (pyStartsWith_append_left _ _ _ hdt))
      · exact pyStartsWith_append_left _ _ _ hdt
    obtain ⟨L, hL⟩ := flLines_insert_tail s pre post marker
      (if s.scroll = false then dt ++ " " ++ s.file_name ++ "!" else dt ++ "!")
      fuel ml (i + 1) hpost hDT
    refine ⟨L, ?_⟩
    generalize hF : post.length + fuel + 3 = F at hL ⊢
    simp only [flLines, hg, hmc, hmk, hml', hidx, Bool.false_eq_true, if_false,
      if_true]
    exact hL
  case pos =>
    obtain ⟨v, hml⟩ : ∃ v, ml = some v := by
      rcases hml with hml | hv
      · rw [hml] at hmx; cases hmx
      · exact hv
    have hDT : pyStartsWith
        (if s.scroll = false then dt ++ " of " ++ v ++ " " ++ s.file_name
         else dt ++ " of " ++ v) "M117 " = true := by
      split
      · exact pyStartsWith_append_left _ _ _ (pyStartsWith_append_left _ _ _
          (pyStartsWith_append_left _ _ _ (pyStartsWith_append_left _ _ _ hdt)))
      · exact pyStartsWith_append_left _ _ _ (pyStartsWith_append_left _ _ _ hdt)
    obtain ⟨L, hL⟩ := flLines_insert_tail s pre post marker
      (if s.scroll = false then dt ++ " of " ++ v ++ " " ++ s.file_name
       else dt ++ " of " ++ v)
      fuel ml (i + 1) hpost hDT
    refine ⟨L, ?_⟩
    generalize hF : post.length + fuel + 3 = F at hL ⊢
    simp only [flLines, hg, hmc, hmk, hml, hmx, hidx, Bool.false_eq_true, if_false,
      if_true]
    rw [← hml]
    exact hL

/-- C8 helper (display-progress): a section without the `";LAYER:"`
substring is skipped — the `current_layer += 1` is undone, nothing is
written, nothing can raise. -/
theorem dpBody_skip (st : DPSettings) (nl tt : ℤ) (fli : ℕ) (base : String)
    (data : Doc) (cl te : ℤ) (c : ℕ) (sec : String)
    (hget : data.get? (fli + c) = some sec)
    (hmark : strContains sec ";LAYER:" = false) :
    dpBody st nl tt fli base (data, cl, te) c = .ok (data, cl, te) := by
  simp only [dpBody, List.get?_eq_getElem?] at *
  rw [hget]
  simp [hmark]

/-- C8 helper (display-progress): a section containing the `";LAYER:"`
substring consumes exactly one ordinal: any normal return of the loop body
carries `current_layer + 1`. -/
theorem dpBody_consumes (st : DPSettings) (nl tt : ℤ) (fli : ℕ) (base : String)
    (data : Doc) (cl te : ℤ) (c : ℕ) (sec : String) (d' : Doc) (cl' te' : ℤ)
    (hget : data.get? (fli + c) = some sec)
    (hmark : strContains sec ";LAYER:" = true)
    (h : dpBody st nl tt fli base (data, cl, te) c = .ok (d', cl', te')) :
    cl' = cl + 1 := by
  rw [List.get?_eq_getElem?] at hget
  simp only [dpBody] at h
  rw [List.get?_eq_getElem?, hget] at h
  simp only [hmark, Bool.true_eq_false, if_false] at h
  split at h
  · split at h
    · cases h
    next te₂ hte =>
      cases h
      rfl
  · cases h
    rfl

/-- C8 helper: when a section has a `";LAYER:"`-prefixed line, the inserted
primary display line contains `"M117 "` followed by the display text (which
the loop body builds as the base text followed by the ordinal). -/
theorem insertDisplay_writes_text (dt : String) (m118 : Bool) :
    ∀ lines : List String, (∃ l ∈ lines, pyStartsWith l ";LAYER:" = true) →
    ∃ l' ∈ insertDisplay dt m118 lines, strContains l' ("M117 " ++ dt) = true := by
  intro lines hl
  induction lines with
  | nil => simp at hl
  | cons a rest ih =>
    by_cases ha : pyStartsWith a ";LAYER:" = true
    · refine ⟨a ++ "\nM117 " ++ dt ++ (if m118 then "\nM118 " ++ dt else ""),
        ?_, ?_⟩
      · simp [insertDisplay, ha]
      · unfold strContains
        have hinf : ("M117 " ++ dt).toList <:+:
            (a ++ "\nM117 " ++ dt ++ (if m118 then "\nM118 " ++ dt else "")).toList := by
          refine ⟨a.toList ++ ['\n'],
            (if m118 then "\nM118 " ++ dt else "").toList, ?_⟩
          simp [String.toList]
        exact decide_eq_true hinf
    · have hl' : ∃ l ∈ rest, pyStartsWith l ";LAYER:" = true := by
        rcases hl with ⟨l, hmem, hpl⟩
        rcases List.mem_cons.mp hmem with rfl | hmem
        · exact absurd hpl ha
        · exact ⟨l, hmem, hpl⟩
      obtain ⟨l', hmem', hc'⟩ := ih hl'
      refine ⟨l', ?_, hc'⟩
      simp only [insertDisplay, ha, Bool.false_eq_true, if_false]
      exact List.mem_cons_of_mem _ hmem'

/-- C8 (amended): ordinal numbering of the two display modes.  In
display-progress mode the counter starts at 0 and the loop body adds
exactly 1 for each section containing the `";LAYER:"` substring (the
inserted primary line carrying `"M117 "` plus the built display text),
while a section without the substring is skipped without consuming an
ordinal, without any modification and without raising.  In filename-layer
mode the counter starts at the configured start number but is incremented
once per `";LAYER:"`-prefixed *line*, not per section: a section whose
lines are all plain consumes no ordinal and cannot raise, and a section
with exactly one marker line among plain lines consumes exactly one — but
a section with several marker lines consumes several ordinals (see the
counterexample), so the contiguity stated in the original claim fails. -/
theorem layer_ordinal_numbering :
    (∀ (st : DPSettings) (nl tt : ℤ) (fli : ℕ) (base : String) (data : Doc)
       (cl te : ℤ) (c : ℕ) (sec : String),
       data.get? (fli + c) = some sec → strContains sec ";LAYER:" = false →
       dpBody st nl tt fli base (data, cl, te) c = .ok (data, cl, te)) ∧
    (∀ (st : DPSettings) (nl tt : ℤ) (fli : ℕ) (base : String) (data : Doc)
       (cl te : ℤ) (c : ℕ) (sec : String) (d' : Doc) (cl' te' : ℤ),
       data.get? (fli + c) = some sec → strContains sec ";LAYER:" = true →
       dpBody st nl tt fli base (data, cl, te) c = .ok (d', cl', te') →
       cl' = cl + 1) ∧
    (∀ (dt : String) (m118 : Bool) (lines : List String),
       (∃ l ∈ lines, pyStartsWith l ";LAYER:" = true) →
       ∃ l' ∈ insertDisplay dt m118 lines, strContains l' ("M117 " ++ dt) = true) ∧
    (∀ (s : FLSettings) (lines : List String) (fuel : ℕ) (ml : Option String)
       (i : ℤ) (dt : String),
       (∀ l ∈ lines, plainLine l = true) →
       flLines s (lines.length + fuel + 1) lines 0 ml i dt = .ok (lines, ml, i)) ∧
    (∀ (s : FLSettings) (pre post : List String) (marker : String) (fuel : ℕ)
       (ml : Option String) (i : ℤ) (dt : String),
       (∀ l ∈ pre, plainLine l = true) → (∀ l ∈ post, plainLine l = true) →
       pyStartsWith marker ";LAYER:" = true →
       pyStartsWith marker ";LAYER_COUNT:" = false →
       (s.maxlayer = false ∨ ∃ v, ml = some v) →
       pyStartsWith dt "M117 " = true →
       ∃ lines', flLines s (pre.length + post.length + fuel + 4)
         (pre ++ marker :: post) 0 ml i dt = .ok (lines', ml, i + 1)) := by
  refine ⟨?_, ?_, ?_, ?_, ?_⟩
  · intro st nl tt fli base data cl te c sec hget hmark
    exact dpBody_skip st nl tt fli base data cl te c sec hget hmark
  · intro st nl tt fli base data cl te c sec d' cl' te' hget hmark h
    exact dpBody_consumes st nl tt fli base data cl te c sec d' cl' te' hget hmark h
  · intro dt m118 lines hl
    exact insertDisplay_writes_text dt m118 lines hl
  · intro s lines fuel ml i dt hplain
    exact flLines_all_plain s lines fuel ml i dt hplain
  · intro s pre post marker fuel ml i dt hpre hpost hmk hmc hml hdt
    exact flLines_single_marker s pre post marker fuel ml i dt hpre hpost hmk hmc hml hdt

/-- C8 counterexample: in filename mode a single section holding two
`";LAYER:"` lines consumes two ordinals and repeats the first one: the two
inserted lines both show `"Layer 1"`, the next marked section shows
`"Layer 3"`, and `"Layer 2"` is never written anywhere — the ordinal does
not increment by exactly 1 per marked section and the written numbering is
not contiguous. -/
theorem layer_ordinal_counterexample :
    flExecute ⟨"benchy", false, false, 1, false, false⟩ 100
        [";LAYER_COUNT:2", ";LAYER:0\n;LAYER:1", ";LAYER:5\nend"]
      = .ok [";LAYER_COUNT:2",
             ";LAYER:0\nM117 Layer 1 benchy!\n;LAYER:1\nM117 Layer 1 benchy! benchy!",
             ";LAYER:5\nM117 Layer 3 benchy!\nend"] ∧
    strContains
      ";LAYER:0\nM117 Layer 1 benchy!\n;LAYER:1\nM117 Layer 1 benchy! benchy!"
      "M117 Layer 2" = false ∧
    strContains ";LAYER:5\nM117 Layer 3 benchy!\nend" "M117 Layer 2" = false ∧
    strContains ";LAYER:5\nM117 Layer 3 benchy!\nend" "M117 Layer 3" = true :=
  ⟨by rfl, by decide, by decide, by decide⟩

/-- C8 witness: concrete instantiations of all five parts of the amended
numbering theorem. -/
theorem layer_ordinal_numbering_witness :
    dpBody ⟨true, false, false, 1, false⟩ 0 0 0 "layer " (["pre", "G1 X0"], 0, 0) 1
      = .ok (["pre", "G1 X0"], 0, 0) ∧
    (1 : ℤ) = 0 + 1 ∧
    (∃ l' ∈ insertDisplay "1/3" false [";LAYER:0", "G1"],
       strContains l' ("M117 " ++ "1/3") = true) ∧
    flLines ⟨"f", false, false, 1, false, false⟩ 2 ["G1"] 0 none 5 "M117 Layer 5"
      = .ok (["G1"], none, 5) ∧
    (∃ lines', flLines ⟨"f", false, false, 1, false, false⟩ 5
       ([] ++ ";LAYER:0" :: ["G1"]) 0 none 1 "M117 Layer 1"
       = .ok (lines', none, 1 + 1)) := by
  refine ⟨?_, ?_, ?_, ?_, ?_⟩
  · exact layer_ordinal_numbering.1 ⟨true, false, false, 1, false⟩ 0 0 0 "layer "
      ["pre", "G1 X0"] 0 0 1 "G1 X0" (by rfl) (by decide)
  · exact layer_ordinal_numbering.2.1 ⟨true, false, false, 1, false⟩ 0 0 0 "layer "
      [";LAYER:0\nG1"] 0 0 0 ";LAYER:0\nG1"
      [";LAYER:0\nM117 layer 1/0\nG1"] 1 0 (by rfl) (by decide) (by rfl)
  · exact layer_ordinal_numbering.2.2.1 "1/3" false [";LAYER:0", "G1"]
      ⟨";LAYER:0", by simp, by decide⟩
  · exact layer_ordinal_numbering.2.2.2.1 ⟨"f", false, false, 1, false, false⟩
      ["G1"] 0 none 5 "M117 Layer 5" (by intro l hl; fin_cases hl <;> decide)
  · exact layer_ordinal_numbering.2.2.2.2 ⟨"f", false, false, 1, false, false⟩
      [] ["G1"] ";LAYER:0" 0 none 1 "M117 Layer 1"
      (by intro l hl; cases hl) (by intro l hl; fin_cases hl <;> decide)
      (by decide) (by decide) (Or.inl (by rfl)) (by decide)

/-- The line scan of the first countdown pass processes a concatenation
sequentially. -/
theorem pass1Lines_append (f : ℚ) (sec : String) (num : ℕ) (l1 l2 : List String) :
    ∀ st, pass1Lines f sec num (l1 ++ l2) st
      = match pass1Lines f sec num l1 st with
        | .error e => .error e
        | .ok st' => pass1Lines f sec num l2 st' := by
  induction l1 with
  | nil => intro st; simp [pass1Lines]
  | cons a l ih =>
    intro ⟨tl, t0, pi⟩
    simp only [List.cons_append, pass1Lines]
    by_cases hte : pyStartsWith a ";TIME_ELAPSED:" = true
    · rw [if_pos hte, if_pos hte]
      cases hpf : parseFloat? ((pySplit a ":").getD 1 "") with
      | none => rfl
      | some v =>
        dsimp only
        by_cases hpp : strContains sec "PauseAtHeight.py" = true
        · rw [if_pos hpp, if_pos hpp]
          cases htr : tagRange (v * f) pi (num - 1) (tl ++ [(v * f, false)]) with
          | error e => rfl
          | ok tl' => exact ih _
        · rw [if_neg hpp, if_neg hpp]
          exact ih _
    · rw [if_neg hte, if_neg hte]
      exact ih _

/-- Lines without the elapsed-time prefix are passed over by the first
countdown pass. -/
theorem pass1Lines_skip (f : ℚ) (sec : String) (num : ℕ) (ls : List String)
    (h : ∀ l ∈ ls, pyStartsWith l ";TIME_ELAPSED:" = false) :
    ∀ st, pass1Lines f sec num ls st = .ok st := by
  induction ls with
  | nil => intro st; rfl
  | cons a l ih =>
    intro ⟨tl, t0, pi⟩
    have ha := h a (by simp)
    simp only [pass1Lines, ha, Bool.false_eq_true, if_false]
    exact ih (fun l hl => h l (by simp [hl])) _

/-- A section with exactly one elapsed-time line and no pause marker
appends one untagged scaled entry. -/
theorem pass1Lines_oneTE (f : ℚ) (sec : String) (num : ℕ) (v : ℚ)
    (h : oneTE sec v) (hnp : strContains sec "PauseAtHeight.py" = false)
    (tl : List (ℚ × Bool)) (t0 : ℚ) (pi : ℕ) :
    pass1Lines f sec num (pySplit sec "\n") (tl, t0, pi)
      = .ok (tl ++ [(v * f, false)], v * f, pi) := by
  obtain ⟨pre, post, te, hsplit, hpre, hpost, hte, hv⟩ := h
  rw [hsplit, pass1Lines_append, pass1Lines_skip f sec num pre hpre]
  simp only [pass1Lines, hte, if_true, hv]
  rw [if_neg (by simp [hnp])]
  exact pass1Lines_skip f sec num post hpost _

/-- A pause-marked section with exactly one elapsed-time line appends its
untagged entry, runs the retroactive rewrite loop, and advances the cursor
to `num - 1`. -/
theorem pass1Lines_oneTE_pause (f : ℚ) (sec : String) (num : ℕ) (v : ℚ)
    (h : oneTE sec v) (hp : strContains sec "PauseAtHeight.py" = true)
    (tl tl' : List (ℚ × Bool)) (t0 : ℚ) (pi : ℕ)
    (htag : tagRange (v * f) pi (num - 1) (tl ++ [(v * f, false)]) = .ok tl') :
    pass1Lines f sec num (pySplit sec "\n") (tl, t0, pi)
      = .ok (tl', v * f, num - 1) := by
  obtain ⟨pre, post, te, hsplit, hpre, hpost, hte, hv⟩ := h
  rw [hsplit, pass1Lines_append, pass1Lines_skip f sec num pre hpre]
  simp only [pass1Lines, hte, if_true, hv]
  rw [if_pos hp, htag]
  exact pass1Lines_skip f sec num post hpost _

/-- Exact effect of the retroactive rewrite loop
`for qnum in range(num-1, pause_index, -1)`: provided the entries in the
range are untagged (so `float(...)` does not hit a `"P"` suffix), it
succeeds, leaves every entry at index `≤ pause_index` or `> num-1`
untouched, and turns every entry in the range into
`(this_time - value, tagged)`. -/
theorem tagRange_spec (T : ℚ) (lo : ℕ) :
    ∀ (q : ℕ) (tl : List (ℚ × Bool)),
    (∀ j, lo < j → j ≤ q → ∃ v, tl.get? j = some (v, false)) →
    ∃ tl', tagRange T lo q tl = .ok tl' ∧ tl'.length = tl.length ∧
      (∀ j, (j ≤ lo ∨ q < j) → tl'.get? j = tl.get? j) ∧
      (∀ j v, lo < j → j ≤ q → tl.get? j = some (v, false) →
        tl'.get? j = some (T - v, true)) := by
  intro q
  induction q with
  | zero =>
    intro tl _
    exact ⟨tl, rfl, rfl, fun j _ => rfl, fun j v hlt hle _ => by omega⟩
  | succ q ih =>
    intro tl hrange
    by_cases hql : q + 1 ≤ lo
    · refine ⟨tl, ?_, rfl, fun j _ => rfl, fun j v hlt hle _ => by omega⟩
      unfold tagRange
      rw [if_pos hql]
    · obtain ⟨v, hv⟩ := hrange (q + 1) (by omega) le_rfl
      have hrange' : ∀ j, lo < j → j ≤ q →
          ∃ w, (tl.set (q + 1) (T - v, true)).get? j = some (w, false) := by
        intro j hlt hle
        obtain ⟨w, hw⟩ := hrange j hlt (by omega)
        refine ⟨w, ?_⟩
        rw [List.get?_eq_getElem?] at hw ⊢
        rw [List.getElem?_set_ne (by omega)]
        exact hw
      obtain ⟨tl', htr, hlen, hout, hin⟩ := ih (tl.set (q + 1) (T - v, true)) hrange'
      refine ⟨tl', ?_, ?_, ?_, ?_⟩
      · unfold tagRange
        rw [if_neg hql, hv]
        simp only [Bool.false_eq_true, if_false]
        exact htr
      · rw [hlen, List.length_set]
      · intro j hj
        rcases hj with hj | hj
        · rw [hout j (Or.inl hj)]
          rw [List.get?_eq_getElem?, List.get?_eq_getElem?,
            List.getElem?_set_ne (by omega)]
        · rw [hout j (by omega)]
          rw [List.get?_eq_getElem?, List.get?_eq_getElem?,
            List.getElem?_set_ne (by omega)]
      · intro j w hlt hle hj
        rcases Nat.lt_or_ge j (q + 1) with hlt' | hge
        · refine hin j w hlt (by omega) ?_
          rw [List.get?_eq_getElem?] at hj ⊢
          rw [List.getElem?_set_ne (by omega)]
          exact hj
        · have hj1 : j = q + 1 := by omega
          rw [hj1] at hj ⊢
          have hvw : v = w := by
            have h2 := hv.symm.trans hj
            injection h2 with h3
            exact (Prod.mk.injEq .. ▸ h3).1
          rw [hout (q + 1) (by omega)]
          have hjlen : q + 1 < tl.length := by
            rw [List.get?_eq_getElem?] at hj
            exact (List.getElem?_eq_some.mp hj).1
          rw [List.get?_eq_getElem?, List.getElem?_set_self hjlen, hvw]

/-- The outer loop of the first countdown pass processes a concatenation of
section blocks sequentially, advancing `num` by the block length. -/
theorem pass1Go_append (f : ℚ) (l1 l2 : List String) :
    ∀ (num : ℕ) (st : List (ℚ × Bool) × ℚ × ℕ),
    pass1Go f (l1 ++ l2) num st
      = match pass1Go f l1 num st with
        | .error e => .error e
        | .ok st' => pass1Go f l2 (num + l1.length) st' := by
  induction l1 with
  | nil => intro num st; simp [pass1Go]
  | cons a l ih =>
    intro num st
    simp only [List.cons_append, pass1Go]
    cases pass1Lines f a num (pySplit a "\n") st with
    | error e => rfl
    | ok st' =>
      dsimp only [List.append_eq]
      rw [ih (num + 1) st']
      have he : num + 1 + l.length = num + (a :: l).length := by
        simp only [List.length_cons]; omega
      rw [he]

/-- Walking pause-free well-formed sections appends one untagged scaled
entry per section and leaves the cursor alone. -/
theorem pass1Go_no_pause (f : ℚ) (secs : List String) (vs : List ℚ)
    (h2 : List.Forall₂ oneTE secs vs) :
    ∀ (num : ℕ) (tl : List (ℚ × Bool)) (t0 : ℚ) (pi : ℕ),
    (∀ sec ∈ secs, strContains sec "PauseAtHeight.py" = false) →
    ∃ t1, pass1Go f secs num (tl, t0, pi)
      = .ok (tl ++ vs.map (fun v => (v * f, false)), t1, pi) := by
  induction h2 with
  | nil =>
    intro num tl t0 pi _
    exact ⟨t0, by simp [pass1Go]⟩
  | @cons sec v secs' vs' h1 h2 ih =>
    intro num tl t0 pi hnp
    obtain ⟨t1, hrec⟩ := ih (num + 1) (tl ++ [(v * f, false)]) (v * f) pi
      (fun s hs => hnp s (by simp [hs]))
    refine ⟨t1, ?_⟩
    simp only [pass1Go]
    rw [pass1Lines_oneTE f sec num v h1 (hnp sec (by simp)) tl t0 pi]
    dsimp only
    rw [hrec]
    simp

/-- C4 helper: exact tagging of the first countdown pass on a document with
exactly one pause-marked layer section.  Sections strictly before the pause
get tagged time-to-pause entries, the pause section's own entry and every
later section's entry stay untagged, and the cursor ends just before the
pause section (`num_pause - 1 = A.length + 1`), not at the pause section. -/
theorem pass1_single_pause (f : ℚ) (d0 d1 epi psec : String)
    (A B : List String) (vsA vsB : List ℚ) (vp : ℚ)
    (hA : List.Forall₂ oneTE A vsA) (hB : List.Forall₂ oneTE B vsB)
    (hp : oneTE psec vp)
    (hAnp : ∀ sec ∈ A, strContains sec "PauseAtHeight.py" = false)
    (hBnp : ∀ sec ∈ B, strContains sec "PauseAtHeight.py" = false)
    (hpp : strContains psec "PauseAtHeight.py" = true) :
    ∃ tl t1, pass1 f (d0 :: d1 :: ((A ++ psec :: B) ++ [epi]))
        = .ok (tl, t1, A.length + 1) ∧
      tl.get? 0 = some (0, false) ∧ tl.get? 1 = some (0, false) ∧
      (∀ k v, vsA.get? k = some v → tl.get? (2 + k) = some (vp * f - v * f, true)) ∧
      tl.get? (2 + A.length) = some (vp * f, false) ∧
      (∀ k v, vsB.get? k = some v → tl.get? (3 + A.length + k) = some (v * f, false)) := by
  have hlenA : A.length = vsA.length := hA.length_eq
  have hsecs : ((d0 :: d1 :: ((A ++ psec :: B) ++ [epi])).drop 2).take
      ((d0 :: d1 :: ((A ++ psec :: B) ++ [epi])).length - 3) = A ++ psec :: B := by
    have h3 : (d0 :: d1 :: ((A ++ psec :: B) ++ [epi])).length - 3
        = (A ++ psec :: B).length := by
      simp
    rw [h3]
    show ((A ++ psec :: B) ++ [epi]).take (A ++ psec :: B).length = A ++ psec :: B
    exact List.take_left ..
  obtain ⟨t1A, hGA⟩ := pass1Go_no_pause f A vsA hA 2 [(0, false), (0, false)] 0 1 hAnp
  set mapA := vsA.map (fun v => (v * f, false)) with hmapA
  have hmapA_len : mapA.length = vsA.length := by rw [hmapA]; exact List.length_map ..
  set tlpre := ([(0, false), (0, false)] ++ mapA) ++ [(vp * f, false)] with htlpre
  have hpre_len : ([((0:ℚ), false), ((0:ℚ), false)] ++ mapA).length = vsA.length + 2 := by
    simp [hmapA_len]
  have hrange : ∀ j, 1 < j → j ≤ A.length + 1 → ∃ v, tlpre.get? j = some (v, false) := by
    intro j h1 h2
    cases hvw : vsA.get? (j - 2) with
    | none =>
      rw [List.get?_eq_getElem?] at hvw
      have := List.getElem?_eq_none_iff.mp hvw
      omega
    | some w =>
      refine ⟨w * f, ?_⟩
      rw [htlpre, List.get?_eq_getElem?]
      rw [List.getElem?_append_left (by rw [hpre_len]; omega)]
      have hj2 : ([((0:ℚ), false), ((0:ℚ), false)] : List (ℚ × Bool)).length ≤ j := by
        simp only [List.length_cons, List.length_nil]
        omega
      rw [List.getElem?_append_right hj2]
      rw [hmapA, List.getElem?_map]
      rw [List.get?_eq_getElem?] at hvw
      simp only [List.length_cons, List.length_nil]
      rw [show 0 + 1 + 1 = 2 from rfl, hvw]
      rfl
  obtain ⟨tl2, htr, hlen2, hout2, hin2⟩ :=
    tagRange_spec (vp * f) 1 (A.length + 1) tlpre hrange
  have htl2_len : tl2.length = vsA.length + 3 := by
    rw [hlen2, htlpre, List.length_append, hpre_len]
    simp
  obtain ⟨t1B, hGB⟩ := pass1Go_no_pause f B vsB hB (2 + A.length + 1) tl2 (vp * f)
    (A.length + 1) hBnp
  refine ⟨tl2 ++ vsB.map (fun v => (v * f, false)), t1B, ?_, ?_, ?_, ?_, ?_, ?_⟩
  · unfold pass1
    rw [hsecs, pass1Go_append f A (psec :: B) 2 ([(0, false), (0, false)], 0, 1), hGA]
    dsimp only
    simp only [pass1Go]
    rw [pass1Lines_oneTE_pause f psec (2 + A.length) vp hp hpp
      ([(0, false), (0, false)] ++ mapA) tl2 t1A 1
      (by rw [show 2 + A.length - 1 = A.length + 1 from by omega]; exact htr)]
    dsimp only
    rw [show 2 + A.length - 1 = A.length + 1 from by omega]
    rw [hGB]
  · rw [List.get?_eq_getElem?,
      List.getElem?_append_left (by rw [htl2_len]; omega),
      ← List.get?_eq_getElem?, hout2 0 (Or.inl (by omega)), htlpre]
    rfl
  · rw [List.get?_eq_getElem?,
      List.getElem?_append_left (by rw [htl2_len]; omega),
      ← List.get?_eq_getElem?, hout2 1 (Or.inl le_rfl), htlpre]
    rfl
  · intro k v hk
    have hkl : k < vsA.length := by
      rw [List.get?_eq_getElem?] at hk
      exact (List.getElem?_eq_some.mp hk).1
    rw [List.get?_eq_getElem?,
      List.getElem?_append_left (by rw [htl2_len]; omega),
      ← List.get?_eq_getElem?]
    apply hin2 (2 + k) (v * f) (by omega) (by omega)
    rw [htlpre, List.get?_eq_getElem?]
    rw [List.getElem?_append_left (by rw [hpre_len]; omega)]
    have hk2 : ([((0:ℚ), false), ((0:ℚ), false)] : List (ℚ × Bool)).length ≤ 2 + k := by
      simp only [List.length_cons, List.length_nil]
      omega
    rw [List.getElem?_append_right hk2]
    rw [hmapA, List.getElem?_map]
    rw [List.get?_eq_getElem?] at hk
    simp only [List.length_cons, List.length_nil]
    rw [show 2 + k - (0 + 1 + 1) = k from by omega, hk]
    rfl
  · rw [List.get?_eq_getElem?,
      List.getElem?_append_left (by rw [htl2_len]; omega),
      ← List.get?_eq_getElem?, hout2 (2 + A.length) (Or.inr (by omega)), htlpre,
      List.get?_eq_getElem?,
      List.getElem?_append_right (by rw [hpre_len]; omega)]
    rw [hpre_len, show 2 + A.length - (vsA.length + 2) = 0 from by omega]
    rfl
  · intro k v hk
    rw [List.get?_eq_getElem?,
      List.getElem?_append_right (by rw [htl2_len]; omega),
      List.getElem?_map]
    rw [List.get?_eq_getElem?] at hk
    rw [show 3 + A.length + k - tl2.length = k from by rw [htl2_len]; omega, hk]
    rfl

/-- C4 helper: the second countdown pass leaves a section whose `time_list`
entry is untagged completely unchanged (its `M117`/`M118` lines keep the
`" | ET "` display), and it cannot raise there. -/
theorem pass2Lines_untagged (time_list : List (ℚ × Bool)) (num : ℕ)
    (v : ℚ) (hget : time_list.get? num = some (v, false)) :
    ∀ (ls : List String) (layer : String) (ttg : Option String),
    pass2Lines time_list num ls layer ttg = .ok (layer, ttg) := by
  intro ls
  induction ls with
  | nil => intro layer ttg; rfl
  | cons line rest ih =>
    intro layer ttg
    simp only [pass2Lines]
    by_cases h117 : (pyStartsWith line "M117" && strContains line "|") = true
    · rw [if_pos h117, hget]
      dsimp only
      rw [if_neg (by simp)]
      exact ih layer ttg
    · rw [if_neg h117]
      by_cases h118 : (pyStartsWith line "M118" && strContains line "|") = true
      · rw [if_pos h118, hget]
        dsimp only
        rw [if_neg (by simp)]
        exact ih layer ttg
      · rw [if_neg h118]
        exact ih layer ttg

/-- C4 helper: a run of sections whose `time_list` entries are all untagged
passes through the second countdown pass unchanged. -/
theorem pass2Go_untagged (time_list : List (ℚ × Bool)) :
    ∀ (secs : List String) (num : ℕ) (ttg : Option String),
    (∀ k, k < secs.length → ∃ v, time_list.get? (num + k) = some (v, false)) →
    pass2Go time_list secs num ttg = .ok (secs, ttg) := by
  intro secs
  induction secs with
  | nil => intro num ttg _; rfl
  | cons sec rest ih =>
    intro num ttg h
    obtain ⟨v, hget⟩ := h 0 (by simp)
    rw [Nat.add_zero] at hget
    simp only [pass2Go]
    rw [pass2Lines_untagged time_list num v hget (pySplit sec "\n") sec ttg]
    dsimp only
    rw [ih (num + 1) ttg ?_]
    intro k hk
    have h2 := h (k + 1) (by simp only [List.length_cons]; omega)
    rwa [show num + (k + 1) = num + 1 + k from by omega] at h2

/-- C4 (amended): the countdown-to-pause rewrite affects exactly the
recorded layers from the previous pause cursor (exclusive) up to but
*excluding* the pause-marked layer itself, and the cursor then advances to
just before the pause layer (`num - 1`).  Concretely, on a document with
exactly one pause-marked layer section the first pass tags exactly the
layer entries strictly before the pause layer; the pause layer's own entry
and every entry after it stay untagged, and the second pass leaves every
section with an untagged entry — the pause-marked layer itself and every
layer after the last pause marker — unchanged, so they keep their standard
`" | ET "` remaining-time display. -/
theorem pause_rewrite_range :
    (∀ (f : ℚ) (d0 d1 epi psec : String) (A B : List String)
       (vsA vsB : List ℚ) (vp : ℚ),
      List.Forall₂ oneTE A vsA → List.Forall₂ oneTE B vsB → oneTE psec vp →
      (∀ sec ∈ A, strContains sec "PauseAtHeight.py" = false) →
      (∀ sec ∈ B, strContains sec "PauseAtHeight.py" = false) →
      strContains psec "PauseAtHeight.py" = true →
      ∃ tl t1, pass1 f (d0 :: d1 :: ((A ++ psec :: B) ++ [epi]))
          = .ok (tl, t1, A.length + 1) ∧
        tl.get? 0 = some (0, false) ∧ tl.get? 1 = some (0, false) ∧
        (∀ k v, vsA.get? k = some v →
          tl.get? (2 + k) = some (vp * f - v * f, true)) ∧
        tl.get? (2 + A.length) = some (vp * f, false) ∧
        (∀ k v, vsB.get? k = some v →
          tl.get? (3 + A.length + k) = some (v * f, false))) ∧
    (∀ (time_list : List (ℚ × Bool)) (num : ℕ) (v : ℚ),
      time_list.get? num = some (v, false) →
      ∀ (ls : List String) (layer : String) (ttg : Option String),
      pass2Lines time_list num ls layer ttg = .ok (layer, ttg)) ∧
    (∀ (time_list : List (ℚ × Bool)) (secs : List String) (num : ℕ)
       (ttg : Option String),
      (∀ k, k < secs.length → ∃ v, time_list.get? (num + k) = some (v, false)) →
      pass2Go time_list secs num ttg = .ok (secs, ttg)) := by
  refine ⟨?_, ?_, ?_⟩
  · intro f d0 d1 epi psec A B vsA vsB vp hA hB hp hAnp hBnp hpp
    exact pass1_single_pause f d0 d1 epi psec A B vsA vsB vp hA hB hp hAnp hBnp hpp
  · intro time_list num v hget ls layer ttg
    exact pass2Lines_untagged time_list num v hget ls layer ttg
  · intro time_list secs num ttg h
    exact pass2Go_untagged time_list secs num ttg h

/-- C4 counterexample: one pause layer (section 3, marked by the
`PauseAtHeight.py` text).  The countdown rewrite turns the layer *before*
the pause into a `"| TP "` display, but the pause-marked layer itself is
returned character-for-character unchanged, still showing `" | ET 40m"` —
the rewrite does not extend "up to and including the pause-marked layer
itself" as the claim states. -/
theorem pause_rewrite_counterexample :
    pausePass 1 ["pre", "pre2",
      ";LAYER:0\nM117 1/3 | ET 1h00m\n;TIME_ELAPSED:1200",
      ";LAYER:1\nM117 2/3 | ET 40m\nM0 ;PauseAtHeight.py\n;TIME_ELAPSED:2400",
      ";LAYER:2\nM117 3/3 | ET 20m\n;TIME_ELAPSED:3600",
      "end"]
      = .ok ["pre", "pre2",
      ";LAYER:0\nM117 1/3 | TP 20m0s\n;TIME_ELAPSED:1200",
      ";LAYER:1\nM117 2/3 | ET 40m\nM0 ;PauseAtHeight.py\n;TIME_ELAPSED:2400",
      ";LAYER:2\nM117 3/3 | ET 20m\n;TIME_ELAPSED:3600",
      "end"] ∧
    strContains ";LAYER:1\nM117 2/3 | ET 40m\nM0 ;PauseAtHeight.py\n;TIME_ELAPSED:2400"
      " | TP " = false ∧
    strContains ";LAYER:1\nM117 2/3 | ET 40m\nM0 ;PauseAtHeight.py\n;TIME_ELAPSED:2400"
      " | ET " = true :=
  ⟨by with_unfolding_all rfl, by decide, by decide⟩

/-- C4 witness: the amended-range theorem instantiated on the
counterexample document (one layer before the pause, one after), plus
concrete instances of the two second-pass parts. -/
theorem pause_rewrite_range_witness :
    (∃ tl t1, pass1 1 ("pre" :: "pre2" ::
        (([";LAYER:0\nM117 1/3 | ET 1h00m\n;TIME_ELAPSED:1200"]
          ++ ";LAYER:1\nM117 2/3 | ET 40m\nM0 ;PauseAtHeight.py\n;TIME_ELAPSED:2400"
          :: [";LAYER:2\nM117 3/3 | ET 20m\n;TIME_ELAPSED:3600"]) ++ ["end"]))
        = .ok (tl, t1, [";LAYER:0\nM117 1/3 | ET 1h00m\n;TIME_ELAPSED:1200"].length + 1) ∧
      tl.get? 0 = some (0, false) ∧ tl.get? 1 = some (0, false) ∧
      (∀ k v, ([(1200 : ℚ)]).get? k = some v →
        tl.get? (2 + k) = some ((2400 : ℚ) * 1 - v * 1, true)) ∧
      tl.get? (2 + [";LAYER:0\nM117 1/3 | ET 1h00m\n;TIME_ELAPSED:1200"].length)
        = some ((2400 : ℚ) * 1, false) ∧
      (∀ k v, ([(3600 : ℚ)]).get? k = some v →
        tl.get? (3 + [";LAYER:0\nM117 1/3 | ET 1h00m\n;TIME_ELAPSED:1200"].length + k)
          = some (v * 1, false))) ∧
    pass2Lines [((0 : ℚ), false)] 0 ["M117 2/3 | ET 40m"] "x" none = .ok ("x", none) ∧
    pass2Go [((5 : ℚ), false)] ["sec"] 0 none = .ok (["sec"], none) := by
  have hA : List.Forall₂ oneTE
      [";LAYER:0\nM117 1/3 | ET 1h00m\n;TIME_ELAPSED:1200"] [(1200 : ℚ)] := by
    refine List.Forall₂.cons ?_ List.Forall₂.nil
    refine ⟨[";LAYER:0", "M117 1/3 | ET 1h00m"], [], ";TIME_ELAPSED:1200",
      by rfl, ?_, ?_, by decide, by with_unfolding_all rfl⟩
    · intro l hl
      fin_cases hl <;> decide
    · intro l hl
      cases hl
  have hB : List.Forall₂ oneTE
      [";LAYER:2\nM117 3/3 | ET 20m\n;TIME_ELAPSED:3600"] [(3600 : ℚ)] := by
    refine List.Forall₂.cons ?_ List.Forall₂.nil
    refine ⟨[";LAYER:2", "M117 3/3 | ET 20m"], [], ";TIME_ELAPSED:3600",
      by rfl, ?_, ?_, by decide, by with_unfolding_all rfl⟩
    · intro l hl
      fin_cases hl <;> decide
    · intro l hl
      cases hl
  have hp : oneTE
      ";LAYER:1\nM117 2/3 | ET 40m\nM0 ;PauseAtHeight.py\n;TIME_ELAPSED:2400"
      (2400 : ℚ) := by
    refine ⟨[";LAYER:1", "M117 2/3 | ET 40m", "M0 ;PauseAtHeight.py"], [],
      ";TIME_ELAPSED:2400",
      by rfl, ?_, ?_, by decide, by with_unfolding_all rfl⟩
    · intro l hl
      fin_cases hl <;> decide
    · intro l hl
      cases hl
  refine ⟨?_, ?_, ?_⟩
  · refine pause_rewrite_range.1 1 "pre" "pre2" "end"
      ";LAYER:1\nM117 2/3 | ET 40m\nM0 ;PauseAtHeight.py\n;TIME_ELAPSED:2400"
      [";LAYER:0\nM117 1/3 | ET 1h00m\n;TIME_ELAPSED:1200"]
      [";LAYER:2\nM117 3/3 | ET 20m\n;TIME_ELAPSED:3600"]
      [1200] [3600] 2400 hA hB hp ?_ ?_ (by decide)
    · intro sec hs
      fin_cases hs
      decide
    · intro sec hs
      fin_cases hs
      decide
  · exact pause_rewrite_range.2.1 [((0 : ℚ), false)] 0 0 (by rfl)
      ["M117 2/3 | ET 40m"] "x" none
  · refine pause_rewrite_range.2.2 [((5 : ℚ), false)] ["sec"] 0 none ?_
    intro k hk
    simp only [List.length_cons, List.length_nil] at hk
    have hk0 : k = 0 := by omega
    rw [hk0]
    exact ⟨5, rfl⟩
